import Mathlib

/-!
# thecamp: the request envelope and the paginated letters iterator

A shallow embedding of `client.go` (package `thecamp`).

* Go values of type `int` are mathematical integers (`Int`).  The only
  arithmetic the client performs on them is `currentCount++`, `idx++` and
  `len(letters)-1`, starting from zero, so no value leaves the 64-bit range
  in fewer than `2^63` calls.
* A Go pointer that may be `nil` is an `Option`; dereferencing `none`
  is a run-time panic, as is an index out of range or a failed type
  assertion.  A call therefore ends in `Outcome.ret v` (the returned tuple)
  or in `Outcome.panic msg`.
* Everything outside the repository is a field of `Env`: the HTTP round
  trip (`hc.Do`, which also carries the cookie jar and the remote server in
  its state `σ`) and `encoding/json` at the four result types.
* `Net σ` is the state of the outside world together with the list of the
  requests issued so far, oldest first.
-/

namespace thecamp

/-! ## Data model -/

/-- Go's `error` values: `io.EOF` is told apart, every other error carries its text. -/
inductive Err where
  | EOF
  | other (msg : String)
  deriving DecidableEq, Repr

/-- The type `error`: `none` is `nil`. -/
abbrev error := Option Err

/-- The result of `errors.New`. -/
def errorsNew (msg : String) : error := some (Err.other msg)

/-- How a call ends: it returns, or it panics. -/
inductive Outcome (α : Type) where
  | ret (v : α)
  | panic (msg : String)
  deriving DecidableEq, Repr

/-- The struct `Group`. -/
structure Group where
  ID : String
  Name : String
  UnitName : String
  UnitCode : String
  FullName : String
  EnteredDate : String
  deriving DecidableEq, Repr

/-- The struct `TraineeInfo`; `Group` is the back-reference (a pointer). -/
structure TraineeInfo where
  Group : Option Group
  Name : String
  Birthday : String
  Relationship : String
  deriving DecidableEq, Repr

/-- The type `sortOrder`, an `int`. -/
abbrev sortOrder := Int

/-- The constant `Ascending` (`iota` = 0). -/
def Ascending : sortOrder := 0

/-- The constant `Descending` (1). -/
def Descending : sortOrder := 1

/-- The struct `Letter`. -/
structure Letter where
  ID : String
  Title : String
  Content : String
  Status : Int
  TraineeID : String
  Timestamp : Int
  deriving DecidableEq, Repr

/-- A value of type `interface{}` as `encoding/json` produces it. A number is kept as its text. -/
inductive JVal where
  | null
  | bool (b : Bool)
  | num (text : String)
  | str (s : String)
  | arr (xs : List JVal)
  | obj (kvs : List (String × JVal))

/-- The struct `Response`: the outer envelope. -/
structure Response where
  Code : Int
  Message : String
  Data : JVal

/-- The zero value of `Response` (what `var r Response` holds). -/
def Response.zero : Response := { Code := 0, Message := "", Data := JVal.null }

/-- Indexing a `map[string]interface{}`: a missing key gives `nil`. -/
def mapIndex : List (String × JVal) → String → JVal
  | [], _ => JVal.null
  | (k, v) :: rest, key => if k = key then v else mapIndex rest key

/-- A value placed in a request body. -/
inductive ReqVal where
  | str (s : String)
  | int (n : Int)
  deriving DecidableEq, Repr

/-- One call of `request`: the endpoint and the `map[string]interface{}` sent as the body. -/
structure Request where
  endpoint : String
  data : List (String × ReqVal)
  deriving DecidableEq, Repr

/-- The entry of a request body under `key`, if there is one. -/
def Request.field (r : Request) (key : String) : Option ReqVal :=
  (r.data.find? (fun kv => kv.1 == key)).map Prod.snd

/-- The anonymous result struct of `Groups`. -/
structure GroupsResult where
  Code : Int
  Groups : List (Option Group)

/-- The anonymous result struct of `TraineeInfo`. -/
structure TraineeResult where
  Code : Int
  TraineeInfo : Option TraineeInfo

/-- The anonymous result struct of `letters`. -/
structure LettersResult where
  Code : Int
  Count : Int
  Letters : List (Option Letter)

/-- The world outside the repository. `roundTrip` is `hc.Do` followed by reading the body;
`decodeResponse` is `json.NewDecoder(body).Decode(&r)` on a zero `Response`; the three
`unmarshal` fields are `json.Unmarshal` into the three result structs. -/
structure Env (σ : Type) where
  roundTrip : σ → Request → Except Err String × σ
  decodeResponse : String → Except Err Response
  unmarshalGroups : String → Except Err GroupsResult
  unmarshalTrainee : String → Except Err TraineeResult
  unmarshalLetters : String → Except Err LettersResult

/-- The state of the outside world and the requests issued so far. -/
structure Net (σ : Type) where
  server : σ
  sent : List Request

/-! ## `strings.TrimSpace` -/

/-- Go's `unicode.IsSpace`: the Latin-1 cases and the `White_Space` table. -/
def isSpace (c : Char) : Bool :=
  let r := c.toNat
  if r ≤ 0xFF then
    r = 0x09 || r = 0x0A || r = 0x0B || r = 0x0C || r = 0x0D || r = 0x20 || r = 0x85 || r = 0xA0
  else
    r = 0x1680 || (0x2000 ≤ r && r ≤ 0x200A) || r = 0x2028 || r = 0x2029 || r = 0x202F
      || r = 0x205F || r = 0x3000

/-- Removing the longest suffix of characters satisfying `p`. -/
def trimRight (p : Char → Bool) (cs : List Char) : List Char :=
  (cs.reverse.dropWhile p).reverse

/-- Go's `strings.TrimSpace`: leading, then trailing white space is cut off. -/
def TrimSpace (s : String) : String :=
  String.mk (trimRight isSpace (s.data.dropWhile isSpace))

/-! ## The client -/

variable {σ : Type}

/-- The method `Client.request`. `Except.error e` is the return `(nil, e)`, `Except.ok r` is `(&r, nil)`. -/
def request (env : Env σ) (endpoint : String) (data : List (String × ReqVal)) (net : Net σ) :
    Except Err Response × Net σ :=
  let req : Request := { endpoint := endpoint, data := data }
  let (resp, server1) := env.roundTrip net.server req
  let net1 : Net σ := { server := server1, sent := net.sent ++ [req] }
  match resp with
  | Except.error err => (Except.error err, net1)
  | Except.ok body =>
    match env.decodeResponse body with
    | Except.error err =>
      if err ≠ Err.EOF then (Except.error err, net1) else (Except.ok Response.zero, net1)
    | Except.ok r => (Except.ok r, net1)

/-- The loop of `Groups`: every group's `Name`, `UnitName` and `FullName` is trimmed through
its pointer; a `nil` element makes the loop panic (`none`). -/
def trimGroups : List (Option Group) → Option (List (Option Group))
  | [] => some []
  | none :: _ => none
  | some g :: rest =>
    let g1 := { g with Name := TrimSpace g.Name }
    let g2 := { g1 with UnitName := TrimSpace g1.UnitName }
    let g3 := { g2 with FullName := TrimSpace g2.FullName }
    match trimGroups rest with
    | none => none
    | some out => some (some g3 :: out)

/-- The method `Client.Groups`. -/
def Client.Groups (env : Env σ) (net : Net σ) : Outcome (List (Option Group) × error) × Net σ :=
  let endpoint := "/pcws/troop/group/getMyGroupList.do"
  let data : List (String × ReqVal) := []
  match request env endpoint data net with
  | (Except.error err, net1) => (Outcome.ret ([], some err), net1)
  | (Except.ok r, net1) =>
    match r.Data with
    | JVal.obj m =>
      match mapIndex m "list2" with
      | JVal.str t =>
        match env.unmarshalGroups t with
        | Except.error err => (Outcome.ret ([], some err), net1)
        | Except.ok res =>
          if res.Code ≠ 200 then
            (Outcome.ret ([], errorsNew "invalid result code"), net1)
          else
            match trimGroups res.Groups with
            | none => (Outcome.panic "invalid memory address or nil pointer dereference", net1)
            | some groups => (Outcome.ret (groups, none), net1)
      | _ => (Outcome.panic "interface conversion: interface is not string", net1)
    | _ => (Outcome.panic "interface conversion: interface is not map[string]interface", net1)

/-- The method `Client.TraineeInfo`. -/
def Client.TraineeInfo (env : Env σ) (group : Group) (net : Net σ) :
    Outcome (Option TraineeInfo × error) × Net σ :=
  let endpoint := "pcws/troop/group/getGroupDetail.do"
  let data : List (String × ReqVal) := [("group_id", ReqVal.str group.ID)]
  match request env endpoint data net with
  | (Except.error err, net1) => (Outcome.ret (none, some err), net1)
  | (Except.ok r, net1) =>
    match r.Data with
    | JVal.obj m =>
      match mapIndex m "group" with
      | JVal.str t =>
        match env.unmarshalTrainee t with
        | Except.error err => (Outcome.ret (none, some err), net1)
        | Except.ok res =>
          if res.Code ≠ 200 then
            (Outcome.ret (none, errorsNew "invalid result code"), net1)
          else
            match res.TraineeInfo with
            | none => (Outcome.panic "invalid memory address or nil pointer dereference", net1)
            | some ti => (Outcome.ret (some { ti with Group := some group }, none), net1)
      | _ => (Outcome.panic "interface conversion: interface is not string", net1)
    | _ => (Outcome.panic "interface conversion: interface is not map[string]interface", net1)

/-- The body `letters` sends: the four fixed entries, then `letter_id` when a cursor is given. -/
def lettersData (group : Group) (lastLetterID : Option String) (count : Int) (orderStr : String) :
    List (String × ReqVal) :=
  let data := [("unit_code", ReqVal.str group.UnitCode), ("group_id", ReqVal.str group.ID),
    ("order", ReqVal.str orderStr), ("cnt", ReqVal.int count)]
  match lastLetterID with
  | none => data
  | some id => data ++ [("letter_id", ReqVal.str id)]

/-- The part of `letters` after the `switch`. -/
def lettersFetch (env : Env σ) (group : Group) (lastLetterID : Option String) (count : Int)
    (orderStr : String) (net : Net σ) : Outcome (Int × List (Option Letter) × error) × Net σ :=
  let endpoint := "/pcws/message/letter/getList.do"
  let data := lettersData group lastLetterID count orderStr
  match request env endpoint data net with
  | (Except.error err, net1) => (Outcome.ret (0, [], some err), net1)
  | (Except.ok r, net1) =>
    match r.Data with
    | JVal.obj m =>
      match mapIndex m "list" with
      | JVal.str t =>
        match env.unmarshalLetters t with
        | Except.error err => (Outcome.ret (0, [], some err), net1)
        | Except.ok res =>
          if res.Code ≠ 200 then
            (Outcome.ret (0, [], errorsNew "invalid result code"), net1)
          else
            (Outcome.ret (res.Count, res.Letters, none), net1)
      | _ => (Outcome.panic "interface conversion: interface is not string", net1)
    | _ => (Outcome.panic "interface conversion: interface is not map[string]interface", net1)

/-- The method `Client.letters`. -/
def Client.letters (env : Env σ) (group : Group) (lastLetterID : Option String) (count : Int)
    (order : sortOrder) (net : Net σ) : Outcome (Int × List (Option Letter) × error) × Net σ :=
  if order = Ascending then lettersFetch env group lastLetterID count "ASC" net
  else if order = Descending then lettersFetch env group lastLetterID count "DESC" net
  else (Outcome.ret (0, [], errorsNew "invalid sort order"), net)

/-- The struct `LettersIterator` (the `client` pointer is the `Env` passed to each call). -/
structure LettersIterator where
  group : Group
  lastLetterID : Option String
  order : sortOrder
  totalCount : Option Int
  currentCount : Int
  letters : List (Option Letter)
  idx : Int
  deriving DecidableEq, Repr

/-- The method `Client.LettersIterator`: every field not named is zero. -/
def Client.LettersIterator (group : Group) (order : sortOrder) : LettersIterator :=
  { group := group, lastLetterID := none, order := order, totalCount := none,
    currentCount := 0, letters := [], idx := 0 }

/-- The statement `li.lastLetterID = &letters[len(letters)-1].ID`: it panics on an empty
slice (index -1) and on a `nil` last element. -/
def lastID (letters : List (Option Letter)) : Outcome String :=
  match letters.getLast? with
  | none => Outcome.panic "index out of range [-1]"
  | some none => Outcome.panic "invalid memory address or nil pointer dereference"
  | some (some l) => Outcome.ret l.ID

/-- The method `LettersIterator.Next`, with the iterator as it is left by the call. -/
def LettersIterator.Next (env : Env σ) (li : LettersIterator) (net : Net σ) :
    Outcome (Bool × error) × LettersIterator × Net σ :=
  let stepSize : Int := 30
  match li.totalCount with
  | none =>
    match Client.letters env li.group none stepSize li.order net with
    | (Outcome.panic msg, net1) => (Outcome.panic msg, li, net1)
    | (Outcome.ret (_, _, some err), net1) => (Outcome.ret (false, some err), li, net1)
    | (Outcome.ret (totalCount, letters, none), net1) =>
      let li1 := { li with totalCount := some totalCount }
      if totalCount = 0 then (Outcome.ret (false, none), li1, net1)
      else
        let li2 := { li1 with letters := letters }
        match lastID letters with
        | Outcome.panic msg => (Outcome.panic msg, li2, net1)
        | Outcome.ret id =>
          let li3 := { li2 with lastLetterID := some id }
          let li4 := { li3 with currentCount := 1 }
          (Outcome.ret (true, none), li4, net1)
  | some total =>
    let li1 := { li with currentCount := li.currentCount + 1 }
    if li1.currentCount > total then (Outcome.ret (false, none), li1, net)
    else
      let li2 := { li1 with idx := li1.idx + 1 }
      if li2.idx > (li2.letters.length : Int) - 1 then
        match Client.letters env li2.group li2.lastLetterID stepSize li2.order net with
        | (Outcome.panic msg, net1) => (Outcome.panic msg, li2, net1)
        | (Outcome.ret (_, _, some err), net1) => (Outcome.ret (false, some err), li2, net1)
        | (Outcome.ret (totalCount, letters, none), net1) =>
          let li3 := { li2 with totalCount := some totalCount }
          let li4 := { li3 with letters := letters }
          match lastID letters with
          | Outcome.panic msg => (Outcome.panic msg, li4, net1)
          | Outcome.ret id =>
            let li5 := { li4 with lastLetterID := some id }
            let li6 := { li5 with idx := 0 }
            (Outcome.ret (true, none), li6, net1)
      else (Outcome.ret (true, none), li2, net)

/-- The method `LettersIterator.Letter`: `li.letters[li.idx]`, a pointer that may be `nil`. -/
def LettersIterator.Letter (li : LettersIterator) : Outcome (Option Letter) :=
  if 0 ≤ li.idx ∧ li.idx < (li.letters.length : Int) then
    match li.letters.get? li.idx.toNat with
    | some l => Outcome.ret l
    | none => Outcome.panic "index out of range"
  else Outcome.panic "index out of range"

/-! ## Sequences of calls -/

/-- The iterator and the world after `n` calls of `Next`. -/
def afterCalls (env : Env σ) : Nat → LettersIterator → Net σ → LettersIterator × Net σ
  | 0, li, net => (li, net)
  | n + 1, li, net =>
    let s := afterCalls env n li net
    (LettersIterator.Next env s.1 s.2).2

/-- What the `k`-th call of `Next` returns (`k` counted from 1). -/
def nthNext (env : Env σ) (k : Nat) (li : LettersIterator) (net : Net σ) : Outcome (Bool × error) :=
  let s := afterCalls env (k - 1) li net
  (LettersIterator.Next env s.1 s.2).1

/-! ## The well-behaved letters server -/

/-- The at most `n` letters of `L` that follow the letter whose ID is `c`. -/
def pageAfter (L : List Letter) (c : String) (n : Nat) : List Letter :=
  ((L.dropWhile (fun l => l.ID != c)).drop 1).take n

/-- The page a well-behaved server holding `L` returns for a cursor. -/
def pageFor (L : List Letter) (cursor : Option String) : List Letter :=
  match cursor with
  | none => L.take 30
  | some c => pageAfter L c 30

/-- A server that holds the fixed list `L` and never fails: whatever the state of the world,
a listing with page size 30 returns the total `L.length` and the page for the cursor. -/
def WellBehaved (env : Env σ) (L : List Letter) : Prop :=
  ∀ (group : Group) (cursor : Option String) (order : sortOrder) (net : Net σ),
    order = Ascending ∨ order = Descending →
    (Client.letters env group cursor 30 order net).1 =
      Outcome.ret ((L.length : Int), (pageFor L cursor).map some, none)

/-- The text `letters` sends for an order. -/
def orderStr (order : sortOrder) : String :=
  if order = Ascending then "ASC" else "DESC"

/-- The request `letters` issues for a group, a cursor and an order, with `cnt` = 30. -/
def lettersRequest (group : Group) (cursor : Option String) (order : sortOrder) : Request :=
  { endpoint := "/pcws/message/letter/getList.do",
    data := lettersData group cursor 30 (orderStr order) }

/-! ## Invariant of the iteration -/

/-- The iterator right after its `k`-th advance against a well-behaved server holding `L`
(`1 ≤ k ≤ L.length`): page `(k-1)/30` is buffered and position `(k-1) % 30` is current. -/
def InPage (L : List Letter) (g : Group) (o : sortOrder) (k : Nat) (li : LettersIterator) : Prop :=
  li.group = g ∧ li.order = o ∧ li.totalCount = some (L.length : Int) ∧
  li.currentCount = (k : Int) ∧
  li.letters = ((L.drop (30 * ((k - 1) / 30))).take 30).map some ∧
  li.idx = (((k - 1) % 30 : Nat) : Int) ∧
  ∃ l, L[min (30 * ((k - 1) / 30) + 30) L.length - 1]? = some l ∧ li.lastLetterID = some l.ID

/-- As long as no fetch has succeeded the iterator is as it was constructed: it buffers
nothing and its position is 0. -/
def StartInv (li : LettersIterator) : Prop :=
  li.totalCount = none → li.letters = [] ∧ li.idx = 0

/-- The position of the iterator is past the end of its buffer, so that `Letter()` has
nothing to return and no advance can succeed without a new page. -/
def PastBuffer (li : LettersIterator) : Prop :=
  li.idx > (li.letters.length : Int) - 1

/-- The listing call `Next` makes from this iterator when it makes one: without a cursor
before the first successful fetch, with the remembered cursor afterwards. -/
def fetchOf (env : Env σ) (li : LettersIterator) (net : Net σ) :
    Outcome (Int × List (Option Letter) × error) × Net σ :=
  match li.totalCount with
  | none => Client.letters env li.group none 30 li.order net
  | some _ => Client.letters env li.group li.lastLetterID 30 li.order net

/-- The call of `Next` from this iterator reaches one of its two calls of `letters`: the
first fetch (no total recorded yet), or the next-page fetch (the total is not used up and
the advanced position is past the end of the buffer). -/
def Fetches (li : LettersIterator) : Prop :=
  li.totalCount = none ∨
  ∃ total, li.totalCount = some total ∧ li.currentCount + 1 ≤ total ∧
    li.idx + 1 > (li.letters.length : Int) - 1

/-- The call of `Next` from this iterator and world makes a listing call, and that call
returns a count and a list with a nil error. -/
def FetchOk (env : Env σ) (li : LettersIterator) (net : Net σ) : Prop :=
  Fetches li ∧ ∃ tc ls, (fetchOf env li net).1 = Outcome.ret (tc, ls, none)

/-- The cursor `Next` passes to `letters` from this iterator: none on the first fetch,
the remembered `lastLetterID` on a next-page fetch. -/
def cursorOf (li : LettersIterator) : Option String :=
  match li.totalCount with
  | none => none
  | some _ => li.lastLetterID

/-- The text `out` is `raw` with its surrounding white space removed: `raw` is `out` between
two runs of white space, and `out` neither starts nor ends with white space. -/
def Trimmed (raw out : String) : Prop :=
  (∃ pre post : List Char, raw.data = pre ++ out.data ++ post ∧
    (∀ c ∈ pre, isSpace c = true) ∧ (∀ c ∈ post, isSpace c = true)) ∧
  (∀ c, out.data.head? = some c → isSpace c = false) ∧
  (∀ c, out.data.getLast? = some c → isSpace c = false)

/-! ## A scripted server for concrete runs -/

/-- A scripted server: every envelope carries `outerCode`, every nested object `nestedCode`;
the listing reports `total` and pages through `letters`; the first `failures` round trips
fail in the transport. -/
structure Stub where
  outerCode : Int
  nestedCode : Int
  total : Int
  letters : List Letter
  groups : List (Option Group)
  trainee : Option TraineeInfo
  failures : Nat

/-- The body the scripted server answers with: empty without a cursor, `c` followed by
the cursor otherwise. -/
def cursorText (req : Request) : String :=
  match req.field "letter_id" with
  | some (ReqVal.str c) => "c" ++ c
  | _ => ""

/-- The page the scripted server returns for the text of `cursorText`. -/
def stubPage (L : List Letter) (t : String) : List Letter :=
  match t.data with
  | [] => L.take 30
  | _ :: c => pageAfter L (String.mk c) 30

/-- The world of a scripted server; its state counts the round trips made. -/
def stubEnv (s : Stub) : Env Nat where
  roundTrip := fun n req =>
    if n < s.failures then (Except.error (Err.other "connection refused"), n + 1)
    else (Except.ok (cursorText req), n + 1)
  decodeResponse := fun body =>
    Except.ok { Code := s.outerCode, Message := "",
                Data := JVal.obj [("list2", JVal.str body), ("group", JVal.str body),
                                  ("list", JVal.str body)] }
  unmarshalGroups := fun _ => Except.ok { Code := s.nestedCode, Groups := s.groups }
  unmarshalTrainee := fun _ => Except.ok { Code := s.nestedCode, TraineeInfo := s.trainee }
  unmarshalLetters := fun t =>
    Except.ok { Code := s.nestedCode, Count := s.total,
                Letters := (stubPage s.letters t).map some }

/-- The world before any request. -/
def net0 : Net Nat := { server := 0, sent := [] }

/-- Letter number `i`, with an ID of `i + 1` characters. -/
def letterNo (i : Nat) : Letter :=
  { ID := String.mk (List.replicate (i + 1) 'x'), Title := "", Content := "", Status := 1,
    TraineeID := "t", Timestamp := 0 }

/-- Thirty-five letters with distinct IDs. -/
def letters35 : List Letter := (List.range 35).map letterNo

/-- The group of the example scenario. -/
def group1 : Group :=
  { ID := "G1", Name := "", UnitName := "", UnitCode := "U1", FullName := "", EnteredDate := "" }

/-- A group as the server sends it, with padded fields. -/
def paddedGroup : Group :=
  { ID := "G2", Name := "  3 platoon \t", UnitName := "\n 1 div", UnitCode := "U2",
    FullName := " 1 div 3 platoon  ", EnteredDate := "2019-01-01" }

/-- A trainee record without its back-reference. -/
def trainee1 : TraineeInfo :=
  { Group := none, Name := "Kim", Birthday := "19990101", Relationship := "friend" }

/-- A well-behaved scripted server holding `L`. -/
def pagingStub (L : List Letter) : Stub :=
  { outerCode := 200, nestedCode := 200, total := L.length, letters := L, groups := [],
    trainee := none, failures := 0 }

/-- A scripted server with the given codes, two groups (one padded) and a trainee. -/
def codeStub (outer nested : Int) : Stub :=
  { outerCode := outer, nestedCode := nested, total := 1, letters := [letterNo 0],
    groups := [some paddedGroup, some group1], trainee := some trainee1, failures := 0 }

/-- A scripted server that reports `total` letters and pages through `L`. -/
def countStub (total : Int) (L : List Letter) : Stub :=
  { outerCode := 200, nestedCode := 200, total := total, letters := L, groups := [],
    trainee := none, failures := 0 }

/-- A scripted server holding one letter whose first round trip fails. -/
def flakyStub : Stub :=
  { outerCode := 200, nestedCode := 200, total := 1, letters := [letterNo 0], groups := [],
    trainee := none, failures := 1 }

/-- The padded group with `Name`, `UnitName` and `FullName` trimmed. -/
def trimmedGroup : Group :=
  { ID := "G2", Name := "3 platoon", UnitName := "1 div", UnitCode := "U2",
    FullName := "1 div 3 platoon", EnteredDate := "2019-01-01" }

/-! ## Lemmas -/

theorem request_sent (env : Env σ) (endpoint : String) (data : List (String × ReqVal))
    (net : Net σ) :
    (request env endpoint data net).2.sent = net.sent ++ [{ endpoint := endpoint, data := data }] := by
  unfold request
  dsimp only
  split
  · rfl
  · split
    · split <;> rfl
    · rfl

theorem lettersFetch_sent (env : Env σ) (group : Group) (c : Option String) (n : Int)
    (os : String) (net : Net σ) :
    (lettersFetch env group c n os net).2.sent =
      net.sent ++ [{ endpoint := "/pcws/message/letter/getList.do", data := lettersData group c n os }] := by
  have h := request_sent env "/pcws/message/letter/getList.do" (lettersData group c n os) net
  unfold lettersFetch
  dsimp only
  split
  · rename_i heq
    rw [heq] at h; exact h
  · rename_i heq
    rw [heq] at h
    split
    · split
      · split
        · exact h
        · split <;> exact h
      · exact h
    · exact h

theorem letters_sent (env : Env σ) (group : Group) (c : Option String)
    (order : sortOrder) (net : Net σ) (ho : order = Ascending ∨ order = Descending) :
    (Client.letters env group c 30 order net).2.sent = net.sent ++ [lettersRequest group c order] := by
  unfold Client.letters lettersRequest orderStr
  rcases ho with h | h
  · simp [h, lettersFetch_sent]
  · subst h
    simp [lettersFetch_sent, Ascending, Descending]



theorem Next_first_ok (env : Env σ) (li : LettersIterator) (net net1 : Net σ) (tc : Int)
    (ls : List (Option Letter)) (id : String)
    (h0 : li.totalCount = none)
    (hf : Client.letters env li.group none 30 li.order net = (Outcome.ret (tc, ls, none), net1))
    (htc : tc ≠ 0) (hid : lastID ls = Outcome.ret id) :
    LettersIterator.Next env li net =
      (Outcome.ret (true, none),
        { li with totalCount := some tc, letters := ls, lastLetterID := some id, currentCount := 1 },
        net1) := by
  simp [LettersIterator.Next, h0, hf, htc, hid]

theorem Next_first_zero (env : Env σ) (li : LettersIterator) (net net1 : Net σ)
    (ls : List (Option Letter))
    (h0 : li.totalCount = none)
    (hf : Client.letters env li.group none 30 li.order net = (Outcome.ret (0, ls, none), net1)) :
    LettersIterator.Next env li net =
      (Outcome.ret (false, none), { li with totalCount := some 0 }, net1) := by
  simp [LettersIterator.Next, h0, hf]

theorem Next_done (env : Env σ) (li : LettersIterator) (net : Net σ) (total : Int)
    (h0 : li.totalCount = some total) (hc : li.currentCount + 1 > total) :
    LettersIterator.Next env li net =
      (Outcome.ret (false, none), { li with currentCount := li.currentCount + 1 }, net) := by
  simp [LettersIterator.Next, h0, hc]

theorem Next_inpage (env : Env σ) (li : LettersIterator) (net : Net σ) (total : Int)
    (h0 : li.totalCount = some total) (hc : li.currentCount + 1 ≤ total)
    (hi : li.idx + 1 ≤ (li.letters.length : Int) - 1) :
    LettersIterator.Next env li net =
      (Outcome.ret (true, none),
        { li with currentCount := li.currentCount + 1, idx := li.idx + 1 }, net) := by
  have h1 : ¬ (total < li.currentCount + 1) := by omega
  have h2 : ¬ ((li.letters.length : Int) - 1 < li.idx + 1) := by omega
  simp [LettersIterator.Next, h0, h1, h2]

theorem Next_page_ok (env : Env σ) (li : LettersIterator) (net net1 : Net σ) (total tc : Int)
    (ls : List (Option Letter)) (id : String)
    (h0 : li.totalCount = some total) (hc : li.currentCount + 1 ≤ total)
    (hi : li.idx + 1 > (li.letters.length : Int) - 1)
    (hf : Client.letters env li.group li.lastLetterID 30 li.order net =
      (Outcome.ret (tc, ls, none), net1))
    (hid : lastID ls = Outcome.ret id) :
    LettersIterator.Next env li net =
      (Outcome.ret (true, none),
        { li with currentCount := li.currentCount + 1, idx := 0, totalCount := some tc,
                  letters := ls, lastLetterID := some id }, net1) := by
  have h1 : ¬ (total < li.currentCount + 1) := by omega
  simp [LettersIterator.Next, h0, h1, hi, hf, hid]



theorem dropWhile_id (L : List Letter) (hd : (L.map Letter.ID).Nodup) (m : Nat) (l : Letter)
    (hm : L[m]? = some l) :
    L.dropWhile (fun x => x.ID != l.ID) = L.drop m := by
  induction L generalizing m with
  | nil => simp at hm
  | cons a rest ih =>
    cases m with
    | zero =>
      simp at hm
      subst hm
      simp [List.dropWhile]
    | succ n =>
      simp at hm
      have hmem : l ∈ rest := List.getElem?_mem hm
      simp only [List.map_cons, List.nodup_cons] at hd
      have hne : a.ID ≠ l.ID := by
        intro h
        apply hd.1
        rw [h]
        exact List.mem_map_of_mem _ hmem
      have hb : (a.ID != l.ID) = true := by simpa using hne
      simp [List.dropWhile, hb, ih hd.2 n hm]

theorem pageAfter_eq (L : List Letter) (hd : (L.map Letter.ID).Nodup) (m : Nat) (l : Letter)
    (hm : L[m]? = some l) :
    pageAfter L l.ID 30 = (L.drop (m + 1)).take 30 := by
  unfold pageAfter
  rw [dropWhile_id L hd m l hm]
  simp [List.drop_drop, Nat.add_comm]

theorem lastID_page (L : List Letter) (a : Nat) (ha : a < L.length) :
    ∃ l, L[min (a + 30) L.length - 1]? = some l ∧
      lastID (((L.drop a).take 30).map some) = Outcome.ret l.ID := by
  have hlt : min (a + 30) L.length - 1 < L.length := by omega
  refine ⟨L[min (a + 30) L.length - 1], by simp [hlt], ?_⟩
  unfold lastID
  have : (((L.drop a).take 30).map some).getLast? = some (some L[min (a + 30) L.length - 1]) := by
    rw [List.getLast?_eq_getElem?]
    simp only [List.length_map, List.length_take, List.length_drop, List.getElem?_map]
    rw [List.getElem?_take_of_lt (by omega), List.getElem?_drop]
    have e : a + (min 30 (L.length - a) - 1) = min (a + 30) L.length - 1 := by omega
    rw [e]
    simp [hlt]
  rw [this]


theorem InPage_first (env : Env σ) (L : List Letter) (g : Group) (o : sortOrder)
    (hL : L ≠ []) (hs : WellBehaved env L) (ho : o = Ascending ∨ o = Descending) (net : Net σ) :
    (LettersIterator.Next env (Client.LettersIterator g o) net).1 = Outcome.ret (true, none) ∧
    InPage L g o 1 (LettersIterator.Next env (Client.LettersIterator g o) net).2.1 ∧
    (LettersIterator.Next env (Client.LettersIterator g o) net).2.2.sent =
      net.sent ++ [lettersRequest g none o] := by
  have hpos : 0 < L.length := List.length_pos.mpr hL
  rcases hp : Client.letters env g none 30 o net with ⟨out, net1⟩
  have h1 := hs g none o net ho
  have h2 := letters_sent env g none o net ho
  rw [hp] at h1 h2
  simp only at h1 h2
  subst h1
  obtain ⟨l, hl, hid⟩ := lastID_page L 0 hpos
  have hnext := Next_first_ok env (Client.LettersIterator g o) net net1 (L.length : Int)
    ((pageFor L none).map some) l.ID rfl hp (by omega) (by simpa [pageFor] using hid)
  rw [hnext]
  refine ⟨rfl, ?_, h2⟩
  refine ⟨rfl, rfl, rfl, rfl, ?_, rfl, l, ?_, rfl⟩
  · simp [pageFor]
  · simpa using hl

theorem InPage_step (env : Env σ) (L : List Letter) (g : Group) (o : sortOrder)
    (hd : (L.map Letter.ID).Nodup) (hs : WellBehaved env L)
    (ho : o = Ascending ∨ o = Descending) (k : Nat) (hk1 : 1 ≤ k) (hk : k < L.length)
    (li : LettersIterator) (net : Net σ) (hinv : InPage L g o k li) :
    (LettersIterator.Next env li net).1 = Outcome.ret (true, none) ∧
    InPage L g o (k + 1) (LettersIterator.Next env li net).2.1 ∧
    (LettersIterator.Next env li net).2.2.sent =
      net.sent ++ (if k % 30 = 0 then [lettersRequest g (L[k - 1]?.map Letter.ID) o] else []) := by
  obtain ⟨hg, hor, htot, hcc, hlet, hidx, l, hl, hlast⟩ := hinv
  have hlen : (li.letters.length : Int) = min 30 (L.length - 30 * ((k - 1) / 30)) := by
    rw [hlet]; simp
  by_cases hb : k % 30 = 0
  · -- the page is used up: the next one is fetched
    have hk30 : 30 * ((k - 1) / 30) + 30 = k := by omega
    have hlk : L[k - 1]? = some l := by
      have e : min (30 * ((k - 1) / 30) + 30) L.length - 1 = k - 1 := by omega
      rw [e] at hl; exact hl
    rcases hp : Client.letters env g (some l.ID) 30 o net with ⟨out, net1⟩
    have h1 := hs g (some l.ID) o net ho
    have h2 := letters_sent env g (some l.ID) o net ho
    rw [hp] at h1 h2
    simp only at h1 h2
    subst h1
    have hpage : pageFor L (some l.ID) = (L.drop k).take 30 := by
      have := pageAfter_eq L hd (k - 1) l hlk
      have e : k - 1 + 1 = k := by omega
      rw [e] at this
      simpa [pageFor] using this
    obtain ⟨l2, hl2, hid2⟩ := lastID_page L k hk
    rw [← hpage] at hid2
    have hnext := Next_page_ok env li net net1 (L.length : Int) (L.length : Int)
      ((pageFor L (some l.ID)).map some) l2.ID htot (by omega) (by omega)
      (by rw [hg, hor, hlast]; exact hp) hid2
    rw [hnext]
    refine ⟨rfl, ?_, ?_⟩
    · have e1 : (k + 1 - 1) / 30 = (k - 1) / 30 + 1 := by omega
      have e2 : (k + 1 - 1) % 30 = 0 := by omega
      have e3 : 30 * ((k - 1) / 30 + 1) = k := by omega
      refine ⟨hg, hor, rfl, ?_, ?_, ?_, l2, ?_, rfl⟩
      · simp [hcc]
      · simp only [e1, e3]; rw [hpage]
      · simp only [e2]; rfl
      · simp only [e1, e3]; exact hl2
    · simp [hb, hlk, h2]
  · -- the page still holds an unread letter
    have hnext := Next_inpage env li net (L.length : Int) htot (by omega) (by omega)
    rw [hnext]
    refine ⟨rfl, ?_, by simp [hb]⟩
    have e1 : (k + 1 - 1) / 30 = (k - 1) / 30 := by omega
    have e2 : (k + 1 - 1) % 30 = (k - 1) % 30 + 1 := by omega
    refine ⟨hg, hor, htot, ?_, ?_, ?_, l, ?_, hlast⟩
    · simp [hcc]
    · simp only [e1]; exact hlet
    · simp only [e2, hidx]; push_cast; ring
    · simp only [e1]; exact hl


theorem afterCalls_succ (env : Env σ) (n : Nat) (li : LettersIterator) (net : Net σ) :
    afterCalls env (n + 1) li net =
      (LettersIterator.Next env (afterCalls env n li net).1 (afterCalls env n li net).2).2 := rfl

theorem nthNext_succ (env : Env σ) (n : Nat) (li : LettersIterator) (net : Net σ) :
    nthNext env (n + 1) li net =
      (LettersIterator.Next env (afterCalls env n li net).1 (afterCalls env n li net).2).1 := rfl

theorem InPage_reach (env : Env σ) (L : List Letter) (g : Group) (o : sortOrder)
    (hL : L ≠ []) (hd : (L.map Letter.ID).Nodup) (hs : WellBehaved env L)
    (ho : o = Ascending ∨ o = Descending) (net : Net σ) (k : Nat) (hk1 : 1 ≤ k)
    (hk : k ≤ L.length) :
    InPage L g o k (afterCalls env k (Client.LettersIterator g o) net).1 := by
  induction k with
  | zero => omega
  | succ n ih =>
    rw [afterCalls_succ]
    cases n with
    | zero => exact (InPage_first env L g o hL hs ho net).2.1
    | succ m =>
      exact (InPage_step env L g o hd hs ho (m + 1) (by omega) (by omega) _ _
        (ih (by omega) (by omega))).2.1

theorem InPage_Letter (L : List Letter) (g : Group) (o : sortOrder) (k : Nat) (hk1 : 1 ≤ k)
    (hk : k ≤ L.length) (li : LettersIterator) (hinv : InPage L g o k li) :
    li.Letter = Outcome.ret (some (L.get ⟨k - 1, by omega⟩)) := by
  obtain ⟨_, _, _, _, hlet, hidx, _⟩ := hinv
  have hlen : li.letters.length = min 30 (L.length - 30 * ((k - 1) / 30)) := by
    rw [hlet]; simp
  have hnat : li.idx.toNat = (k - 1) % 30 := by rw [hidx]; exact Int.toNat_ofNat _
  have hin : 0 ≤ li.idx ∧ li.idx < (li.letters.length : Int) := by
    rw [hidx, hlen]; omega
  unfold LettersIterator.Letter
  rw [if_pos hin, hnat, hlet]
  have e : 30 * ((k - 1) / 30) + (k - 1) % 30 = k - 1 := by omega
  have hlt : (k - 1) % 30 < 30 := by omega
  simp [List.getElem?_take_of_lt hlt, List.getElem?_drop, e]
  have : k - 1 < L.length := by omega
  simp [this]

theorem Done_reach (env : Env σ) (L : List Letter) (g : Group) (o : sortOrder)
    (hL : L ≠ []) (hd : (L.map Letter.ID).Nodup) (hs : WellBehaved env L)
    (ho : o = Ascending ∨ o = Descending) (net : Net σ) (n : Nat) :
    (afterCalls env (L.length + n) (Client.LettersIterator g o) net).1.totalCount =
        some (L.length : Int) ∧
    (afterCalls env (L.length + n) (Client.LettersIterator g o) net).1.currentCount =
        ((L.length + n : Nat) : Int) := by
  have hpos : 0 < L.length := List.length_pos.mpr hL
  induction n with
  | zero =>
    have h := InPage_reach env L g o hL hd hs ho net L.length hpos (le_refl _)
    exact ⟨h.2.2.1, h.2.2.2.1⟩
  | succ m ih =>
    rw [← Nat.add_assoc, afterCalls_succ]
    rw [Next_done env _ _ (L.length : Int) ih.1 (by rw [ih.2]; omega)]
    refine ⟨ih.1, ?_⟩
    simp only [ih.2]
    push_cast
    ring

theorem stub_wellBehaved (L : List Letter) : WellBehaved (stubEnv (pagingStub L)) L := by
  intro g c o net ho
  have hA : Ascending = (0 : Int) := rfl
  have hD : Descending = (1 : Int) := rfl
  cases c with
  | none =>
    rcases ho with h | h <;> subst h <;>
    simp [Client.letters, lettersFetch, request, stubEnv, pagingStub, mapIndex, lettersData,
      cursorText, Request.field, stubPage, pageFor, hA, hD]
  | some c =>
    rcases ho with h | h <;> subst h <;>
    simp [Client.letters, lettersFetch, request, stubEnv, pagingStub, mapIndex, lettersData,
      cursorText, Request.field, stubPage, pageFor, hA, hD]


theorem lettersRequest_cnt (g : Group) (c : Option String) (o : sortOrder) :
    (lettersRequest g c o).field "cnt" = some (ReqVal.int 30) := by
  cases c <;> simp [lettersRequest, lettersData, Request.field, List.find?]

theorem lettersRequest_letter_id (g : Group) (c : Option String) (o : sortOrder) :
    (lettersRequest g c o).field "letter_id" = c.map ReqVal.str := by
  cases c <;> simp [lettersRequest, lettersData, Request.field, List.find?]

theorem afterCalls_zero (env : Env σ) (li : LettersIterator) (net : Net σ) :
    afterCalls env 0 li net = (li, net) := rfl

theorem Letter_nil (li : LettersIterator) (h : li.letters = []) :
    li.Letter = Outcome.panic "index out of range" := by
  unfold LettersIterator.Letter
  split
  · rename_i hc
    rw [h] at hc
    simp at hc
    omega
  · rfl

theorem Groups_of_response (env : Env σ) (net net1 : Net σ) (r : Response)
    (m : List (String × JVal)) (t : String) (res : GroupsResult)
    (hreq : request env "/pcws/troop/group/getMyGroupList.do" [] net = (Except.ok r, net1))
    (hdata : r.Data = JVal.obj m) (ht : mapIndex m "list2" = JVal.str t)
    (hres : env.unmarshalGroups t = Except.ok res) :
    Client.Groups env net =
      if res.Code ≠ 200 then (Outcome.ret ([], errorsNew "invalid result code"), net1)
      else match trimGroups res.Groups with
        | none => (Outcome.panic "invalid memory address or nil pointer dereference", net1)
        | some groups => (Outcome.ret (groups, none), net1) := by
  simp only [Client.Groups, hreq, hdata, ht, hres]
  try rfl

theorem TraineeInfo_of_response (env : Env σ) (group : Group) (net net1 : Net σ) (r : Response)
    (m : List (String × JVal)) (t : String) (res : TraineeResult)
    (hreq : request env "pcws/troop/group/getGroupDetail.do"
      [("group_id", ReqVal.str group.ID)] net = (Except.ok r, net1))
    (hdata : r.Data = JVal.obj m) (ht : mapIndex m "group" = JVal.str t)
    (hres : env.unmarshalTrainee t = Except.ok res) :
    Client.TraineeInfo env group net =
      if res.Code ≠ 200 then (Outcome.ret (none, errorsNew "invalid result code"), net1)
      else match res.TraineeInfo with
        | none => (Outcome.panic "invalid memory address or nil pointer dereference", net1)
        | some ti => (Outcome.ret (some { ti with Group := some group }, none), net1) := by
  simp only [Client.TraineeInfo, hreq, hdata, ht, hres]
  try rfl

theorem letters_of_response (env : Env σ) (group : Group) (cursor : Option String) (count : Int)
    (order : sortOrder) (net net1 : Net σ) (r : Response)
    (m : List (String × JVal)) (t : String) (res : LettersResult)
    (ho : order = Ascending ∨ order = Descending)
    (hreq : request env "/pcws/message/letter/getList.do"
      (lettersData group cursor count (orderStr order)) net = (Except.ok r, net1))
    (hdata : r.Data = JVal.obj m) (ht : mapIndex m "list" = JVal.str t)
    (hres : env.unmarshalLetters t = Except.ok res) :
    Client.letters env group cursor count order net =
      if res.Code ≠ 200 then (Outcome.ret (0, [], errorsNew "invalid result code"), net1)
      else (Outcome.ret (res.Count, res.Letters, none), net1) := by
  have hA : Ascending = (0 : Int) := rfl
  have hD : Descending = (1 : Int) := rfl
  rcases ho with h | h <;> subst h
  · simp only [orderStr, if_true] at hreq
    simp only [Client.letters, lettersFetch, if_true, hreq, hdata, ht, hres]
  · have hne : ¬ (Descending = Ascending) := by decide
    simp only [orderStr, if_neg hne] at hreq
    simp only [Client.letters, lettersFetch, if_neg hne, if_true, hreq, hdata, ht, hres]

theorem Next_first_err (env : Env σ) (li : LettersIterator) (net net1 : Net σ) (tc : Int)
    (ls : List (Option Letter)) (e : Err)
    (h0 : li.totalCount = none)
    (hf : Client.letters env li.group none 30 li.order net = (Outcome.ret (tc, ls, some e), net1)) :
    LettersIterator.Next env li net = (Outcome.ret (false, some e), li, net1) := by
  simp [LettersIterator.Next, h0, hf]

theorem Next_page_err (env : Env σ) (li : LettersIterator) (net net1 : Net σ) (total tc : Int)
    (ls : List (Option Letter)) (e : Err)
    (h0 : li.totalCount = some total) (hc : li.currentCount + 1 ≤ total)
    (hi : li.idx + 1 > (li.letters.length : Int) - 1)
    (hf : Client.letters env li.group li.lastLetterID 30 li.order net =
      (Outcome.ret (tc, ls, some e), net1)) :
    LettersIterator.Next env li net =
      (Outcome.ret (false, some e),
        { li with currentCount := li.currentCount + 1, idx := li.idx + 1 }, net1) := by
  have h1 : ¬ (total < li.currentCount + 1) := by omega
  simp [LettersIterator.Next, h0, h1, hi, hf]

theorem head_dropWhile_false (p : Char → Bool) (l : List Char) (c : Char)
    (h : (l.dropWhile p).head? = some c) : p c = false := by
  induction l with
  | nil => simp at h
  | cons a rest ih =>
    by_cases ha : p a = true
    · rw [List.dropWhile_cons_of_pos ha] at h
      exact ih h
    · rw [List.dropWhile_cons_of_neg ha] at h
      simp at h
      subst h
      simpa using ha

theorem trimRight_split (p : Char → Bool) (l : List Char) :
    l = trimRight p l ++ (l.reverse.takeWhile p).reverse := by
  unfold trimRight
  rw [← List.reverse_append, List.takeWhile_append_dropWhile, List.reverse_reverse]

theorem TrimSpace_Trimmed (raw : String) : Trimmed raw (TrimSpace raw) := by
  refine ⟨⟨raw.data.takeWhile isSpace,
    ((raw.data.dropWhile isSpace).reverse.takeWhile isSpace).reverse, ?_, ?_, ?_⟩, ?_, ?_⟩
  · show raw.data = _ ++ trimRight isSpace (raw.data.dropWhile isSpace) ++ _
    rw [List.append_assoc, ← trimRight_split, List.takeWhile_append_dropWhile]
  · intro c hc
    exact List.mem_takeWhile_imp hc
  · intro c hc
    exact List.mem_takeWhile_imp (List.mem_reverse.mp hc)
  · intro c hc
    change (trimRight isSpace (raw.data.dropWhile isSpace)).head? = some c at hc
    apply head_dropWhile_false isSpace raw.data c
    rw [trimRight_split isSpace (raw.data.dropWhile isSpace), List.head?_append, hc]
    rfl
  · intro c hc
    change (trimRight isSpace (raw.data.dropWhile isSpace)).getLast? = some c at hc
    unfold trimRight at hc
    rw [List.getLast?_reverse] at hc
    exact head_dropWhile_false isSpace _ c hc

theorem trimGroups_spec (l out : List (Option Group)) (h : trimGroups l = some out) :
    out.length = l.length ∧
    ∀ i, i < out.length → ∃ raw g, l[i]? = some (some raw) ∧ out[i]? = some (some g) ∧
      g.ID = raw.ID ∧ g.UnitCode = raw.UnitCode ∧ g.EnteredDate = raw.EnteredDate ∧
      Trimmed raw.Name g.Name ∧ Trimmed raw.UnitName g.UnitName ∧
      Trimmed raw.FullName g.FullName := by
  induction l generalizing out with
  | nil =>
    simp [trimGroups] at h
    subst h
    simp
  | cons a rest ih =>
    cases a with
    | none => simp [trimGroups] at h
    | some g0 =>
      simp only [trimGroups] at h
      cases hr : trimGroups rest with
      | none => rw [hr] at h; simp at h
      | some out1 =>
        rw [hr] at h
        simp only [Option.some.injEq] at h
        subst h
        obtain ⟨hlen, hall⟩ := ih out1 hr
        refine ⟨by simp [hlen], ?_⟩
        intro i hi
        cases i with
        | zero =>
          exact ⟨g0, { g0 with Name := TrimSpace g0.Name, UnitName := TrimSpace g0.UnitName,
                               FullName := TrimSpace g0.FullName },
            by simp, by simp, rfl, rfl, rfl, TrimSpace_Trimmed _,
            TrimSpace_Trimmed _, TrimSpace_Trimmed _⟩
        | succ j =>
          have hj : j < out1.length := by simpa using hi
          obtain ⟨raw, g, h1, h2, h3⟩ := hall j hj
          exact ⟨raw, g, by simpa using h1, by simpa using h2, h3⟩

theorem Next_first_panic (env : Env σ) (li : LettersIterator) (net net1 : Net σ) (msg : String)
    (h0 : li.totalCount = none)
    (hf : Client.letters env li.group none 30 li.order net = (Outcome.panic msg, net1)) :
    LettersIterator.Next env li net = (Outcome.panic msg, li, net1) := by
  simp [LettersIterator.Next, h0, hf]

theorem Next_first_lastpanic (env : Env σ) (li : LettersIterator) (net net1 : Net σ) (tc : Int)
    (ls : List (Option Letter)) (msg : String)
    (h0 : li.totalCount = none)
    (hf : Client.letters env li.group none 30 li.order net = (Outcome.ret (tc, ls, none), net1))
    (htc : tc ≠ 0) (hid : lastID ls = Outcome.panic msg) :
    LettersIterator.Next env li net =
      (Outcome.panic msg, { li with totalCount := some tc, letters := ls }, net1) := by
  simp [LettersIterator.Next, h0, hf, htc, hid]

theorem Next_page_panic (env : Env σ) (li : LettersIterator) (net net1 : Net σ) (total : Int)
    (msg : String)
    (h0 : li.totalCount = some total) (hc : li.currentCount + 1 ≤ total)
    (hi : li.idx + 1 > (li.letters.length : Int) - 1)
    (hf : Client.letters env li.group li.lastLetterID 30 li.order net = (Outcome.panic msg, net1)) :
    LettersIterator.Next env li net =
      (Outcome.panic msg, { li with currentCount := li.currentCount + 1, idx := li.idx + 1 },
        net1) := by
  have h1 : ¬ (total < li.currentCount + 1) := by omega
  simp [LettersIterator.Next, h0, h1, hi, hf]

theorem Next_page_lastpanic (env : Env σ) (li : LettersIterator) (net net1 : Net σ)
    (total tc : Int) (ls : List (Option Letter)) (msg : String)
    (h0 : li.totalCount = some total) (hc : li.currentCount + 1 ≤ total)
    (hi : li.idx + 1 > (li.letters.length : Int) - 1)
    (hf : Client.letters env li.group li.lastLetterID 30 li.order net =
      (Outcome.ret (tc, ls, none), net1))
    (hid : lastID ls = Outcome.panic msg) :
    LettersIterator.Next env li net =
      (Outcome.panic msg,
        { li with currentCount := li.currentCount + 1, idx := li.idx + 1,
                  totalCount := some tc, letters := ls }, net1) := by
  have h1 : ¬ (total < li.currentCount + 1) := by omega
  simp [LettersIterator.Next, h0, h1, hi, hf, hid]

/-- Every way a call of `Next` can go, as a property `P` of its result. -/
theorem Next_cases (env : Env σ) (li : LettersIterator) (net : Net σ)
    (P : Outcome (Bool × error) × LettersIterator × Net σ → Prop)
    (c1 : ∀ msg net1, li.totalCount = none → fetchOf env li net = (Outcome.panic msg, net1) →
      P (Outcome.panic msg, li, net1))
    (c2 : ∀ tc ls e net1, li.totalCount = none →
      fetchOf env li net = (Outcome.ret (tc, ls, some e), net1) →
      P (Outcome.ret (false, some e), li, net1))
    (c3 : ∀ ls net1, li.totalCount = none →
      fetchOf env li net = (Outcome.ret (0, ls, none), net1) →
      P (Outcome.ret (false, none), { li with totalCount := some 0 }, net1))
    (c4 : ∀ tc ls msg net1, li.totalCount = none →
      fetchOf env li net = (Outcome.ret (tc, ls, none), net1) → tc ≠ 0 →
      lastID ls = Outcome.panic msg →
      P (Outcome.panic msg, { li with totalCount := some tc, letters := ls }, net1))
    (c5 : ∀ tc ls id net1, li.totalCount = none →
      fetchOf env li net = (Outcome.ret (tc, ls, none), net1) → tc ≠ 0 →
      lastID ls = Outcome.ret id →
      P (Outcome.ret (true, none),
        { li with totalCount := some tc, letters := ls, lastLetterID := some id,
                  currentCount := 1 }, net1))
    (c6 : ∀ total, li.totalCount = some total → li.currentCount + 1 > total →
      P (Outcome.ret (false, none), { li with currentCount := li.currentCount + 1 }, net))
    (c7 : ∀ total, li.totalCount = some total → li.currentCount + 1 ≤ total →
      li.idx + 1 ≤ (li.letters.length : Int) - 1 →
      P (Outcome.ret (true, none),
        { li with currentCount := li.currentCount + 1, idx := li.idx + 1 }, net))
    (c8 : ∀ total msg net1, li.totalCount = some total → li.currentCount + 1 ≤ total →
      li.idx + 1 > (li.letters.length : Int) - 1 →
      fetchOf env li net = (Outcome.panic msg, net1) →
      P (Outcome.panic msg, { li with currentCount := li.currentCount + 1, idx := li.idx + 1 },
        net1))
    (c9 : ∀ total tc ls e net1, li.totalCount = some total → li.currentCount + 1 ≤ total →
      li.idx + 1 > (li.letters.length : Int) - 1 →
      fetchOf env li net = (Outcome.ret (tc, ls, some e), net1) →
      P (Outcome.ret (false, some e),
        { li with currentCount := li.currentCount + 1, idx := li.idx + 1 }, net1))
    (c10 : ∀ total tc ls msg net1, li.totalCount = some total → li.currentCount + 1 ≤ total →
      li.idx + 1 > (li.letters.length : Int) - 1 →
      fetchOf env li net = (Outcome.ret (tc, ls, none), net1) → lastID ls = Outcome.panic msg →
      P (Outcome.panic msg,
        { li with currentCount := li.currentCount + 1, idx := li.idx + 1,
                  totalCount := some tc, letters := ls }, net1))
    (c11 : ∀ total tc ls id net1, li.totalCount = some total → li.currentCount + 1 ≤ total →
      li.idx + 1 > (li.letters.length : Int) - 1 →
      fetchOf env li net = (Outcome.ret (tc, ls, none), net1) → lastID ls = Outcome.ret id →
      P (Outcome.ret (true, none),
        { li with currentCount := li.currentCount + 1, idx := 0, totalCount := some tc,
                  letters := ls, lastLetterID := some id }, net1)) :
    P (LettersIterator.Next env li net) := by
  cases h0 : li.totalCount with
  | none =>
    have hfo : fetchOf env li net = Client.letters env li.group none 30 li.order net := by
      simp [fetchOf, h0]
    rcases hp : Client.letters env li.group none 30 li.order net with ⟨out, net1⟩
    rw [hp] at hfo
    cases out with
    | panic msg =>
      rw [Next_first_panic env li net net1 msg h0 hp]
      exact c1 msg net1 h0 hfo
    | ret v =>
      obtain ⟨tc, ls, err⟩ := v
      cases err with
      | some e =>
        rw [Next_first_err env li net net1 tc ls e h0 hp]
        exact c2 tc ls e net1 h0 hfo
      | none =>
        by_cases htc : tc = 0
        · subst htc
          rw [Next_first_zero env li net net1 ls h0 hp]
          exact c3 ls net1 h0 hfo
        · cases hid : lastID ls with
          | panic msg =>
            rw [Next_first_lastpanic env li net net1 tc ls msg h0 hp htc hid]
            exact c4 tc ls msg net1 h0 hfo htc hid
          | ret id =>
            rw [Next_first_ok env li net net1 tc ls id h0 hp htc hid]
            exact c5 tc ls id net1 h0 hfo htc hid
  | some total =>
    have hfo : fetchOf env li net =
        Client.letters env li.group li.lastLetterID 30 li.order net := by
      simp [fetchOf, h0]
    by_cases hc : li.currentCount + 1 > total
    · rw [Next_done env li net total h0 hc]
      exact c6 total h0 hc
    · have hc1 : li.currentCount + 1 ≤ total := by omega
      by_cases hi : li.idx + 1 > (li.letters.length : Int) - 1
      · rcases hp : Client.letters env li.group li.lastLetterID 30 li.order net with ⟨out, net1⟩
        rw [hp] at hfo
        cases out with
        | panic msg =>
          rw [Next_page_panic env li net net1 total msg h0 hc1 hi hp]
          exact c8 total msg net1 h0 hc1 hi hfo
        | ret v =>
          obtain ⟨tc, ls, err⟩ := v
          cases err with
          | some e =>
            rw [Next_page_err env li net net1 total tc ls e h0 hc1 hi hp]
            exact c9 total tc ls e net1 h0 hc1 hi hfo
          | none =>
            cases hid : lastID ls with
            | panic msg =>
              rw [Next_page_lastpanic env li net net1 total tc ls msg h0 hc1 hi hp hid]
              exact c10 total tc ls msg net1 h0 hc1 hi hfo hid
            | ret id =>
              rw [Next_page_ok env li net net1 total tc ls id h0 hc1 hi hp hid]
              exact c11 total tc ls id net1 h0 hc1 hi hfo hid
      · rw [Next_inpage env li net total h0 hc1 (by omega)]
        exact c7 total h0 hc1 (by omega)

theorem PastBuffer_Letter (li : LettersIterator) (h : PastBuffer li) :
    li.Letter = Outcome.panic "index out of range" := by
  unfold PastBuffer at h
  unfold LettersIterator.Letter
  rw [if_neg (by omega)]

theorem Next_StartInv (env : Env σ) (li : LettersIterator) (net : Net σ) (h : StartInv li) :
    StartInv (LettersIterator.Next env li net).2.1 := by
  apply Next_cases env li net (fun r => StartInv r.2.1)
  case c1 => intros; exact h
  case c2 => intros; exact h
  case c3 => intros; intro hn; simp at hn
  case c4 => intros; intro hn; simp at hn
  case c5 => intros; intro hn; simp at hn
  case c6 => intro total h0 _ hn; simp only at hn; rw [h0] at hn; simp at hn
  case c7 => intro total h0 _ _ hn; simp only at hn; rw [h0] at hn; simp at hn
  case c8 => intro total _ _ h0 _ _ _ hn; simp only at hn; rw [h0] at hn; simp at hn
  case c9 => intro total _ _ _ _ h0 _ _ _ hn; simp only at hn; rw [h0] at hn; simp at hn
  case c10 => intros; intro hn; simp at hn
  case c11 => intros; intro hn; simp at hn

theorem StartInv_reach (env : Env σ) (g : Group) (o : sortOrder) (net : Net σ) (n : Nat) :
    StartInv (afterCalls env n (Client.LettersIterator g o) net).1 := by
  induction n with
  | zero => intro _; exact ⟨rfl, rfl⟩
  | succ m ih => rw [afterCalls_succ]; exact Next_StartInv env _ _ ih

theorem Next_err_past (env : Env σ) (li : LettersIterator) (net : Net σ) (h : StartInv li)
    (b : Bool) (e : Err)
    (hr : (LettersIterator.Next env li net).1 = Outcome.ret (b, some e)) :
    PastBuffer (LettersIterator.Next env li net).2.1 := by
  revert hr
  apply Next_cases env li net (fun r => r.1 = Outcome.ret (b, some e) → PastBuffer r.2.1)
  case c1 => intros; rename_i hr; simp at hr
  case c2 =>
    intro _ _ _ _ h0 _ _
    obtain ⟨h1, h2⟩ := h h0
    simp [PastBuffer, h1, h2]
  case c3 => intros; rename_i hr; simp at hr
  case c4 => intros; rename_i hr; simp at hr
  case c5 => intros; rename_i hr; simp at hr
  case c6 => intros; rename_i hr; simp at hr
  case c7 => intros; rename_i hr; simp at hr
  case c8 => intros; rename_i hr; simp at hr
  case c9 => intros; simp only [PastBuffer]; omega
  case c10 => intros; rename_i hr; simp at hr
  case c11 => intros; rename_i hr; simp at hr

theorem Next_false_Letter (env : Env σ) (li : LettersIterator) (net : Net σ)
    (hr : (LettersIterator.Next env li net).1 = Outcome.ret (false, none)) :
    (LettersIterator.Next env li net).2.1.Letter = li.Letter := by
  revert hr
  apply Next_cases env li net (fun r => r.1 = Outcome.ret (false, none) → r.2.1.Letter = li.Letter)
  all_goals intros
  all_goals first
    | (rename_i hr; simp at hr; done)
    | rfl

theorem Next_stuck (env : Env σ) (li : LettersIterator) (net : Net σ) (h : PastBuffer li)
    (hno : ¬ FetchOk env li net) :
    (LettersIterator.Next env li net).1 ≠ Outcome.ret (true, none) ∧
    PastBuffer (LettersIterator.Next env li net).2.1 := by
  unfold PastBuffer at h
  apply Next_cases env li net (fun r => r.1 ≠ Outcome.ret (true, none) ∧ PastBuffer r.2.1)
  case c1 => intros; exact ⟨by simp, h⟩
  case c2 => intros; exact ⟨by simp, h⟩
  case c3 => intro ls net1 h0 hf; exact absurd ⟨Or.inl h0, 0, ls, by rw [hf]⟩ hno
  case c4 => intro tc ls _ net1 h0 hf _ _; exact absurd ⟨Or.inl h0, tc, ls, by rw [hf]⟩ hno
  case c5 => intro tc ls _ net1 h0 hf _ _; exact absurd ⟨Or.inl h0, tc, ls, by rw [hf]⟩ hno
  case c6 => intros; exact ⟨by simp, h⟩
  case c7 => intros; omega
  case c8 => intros; exact ⟨by simp, by simp only [PastBuffer]; omega⟩
  case c9 => intros; exact ⟨by simp, by simp only [PastBuffer]; omega⟩
  case c10 =>
    intro total tc ls _ net1 h0 hc hi hf _
    exact absurd ⟨Or.inr ⟨total, h0, hc, hi⟩, tc, ls, by rw [hf]⟩ hno
  case c11 =>
    intro total tc ls _ net1 h0 hc hi hf _
    exact absurd ⟨Or.inr ⟨total, h0, hc, hi⟩, tc, ls, by rw [hf]⟩ hno

theorem letters_ok_valid (env : Env σ) (g : Group) (c : Option String) (n : Int)
    (o : sortOrder) (net : Net σ) (tc : Int) (ls : List (Option Letter))
    (h : (Client.letters env g c n o net).1 = Outcome.ret (tc, ls, none)) :
    o = Ascending ∨ o = Descending := by
  by_cases hA : o = Ascending
  · exact Or.inl hA
  · by_cases hD : o = Descending
    · exact Or.inr hD
    · simp [Client.letters, hA, hD, errorsNew] at h

theorem fetchOf_sent (env : Env σ) (li : LettersIterator) (net : Net σ) (tc : Int)
    (ls : List (Option Letter))
    (h : (fetchOf env li net).1 = Outcome.ret (tc, ls, none)) :
    (fetchOf env li net).2.sent = net.sent ++ [lettersRequest li.group (cursorOf li) li.order] := by
  unfold fetchOf at h ⊢
  unfold cursorOf
  cases h0 : li.totalCount with
  | none =>
    rw [h0] at h
    exact letters_sent env _ _ _ _ (letters_ok_valid env _ _ _ _ _ tc ls h)
  | some total =>
    rw [h0] at h
    exact letters_sent env _ _ _ _ (letters_ok_valid env _ _ _ _ _ tc ls h)

theorem Next_fetch_sent (env : Env σ) (li : LettersIterator) (net : Net σ)
    (hok : FetchOk env li net) :
    (LettersIterator.Next env li net).2.2.sent =
      net.sent ++ [lettersRequest li.group (cursorOf li) li.order] := by
  obtain ⟨hf, tc, ls, hres⟩ := hok
  have hsent := fetchOf_sent env li net tc ls hres
  revert hsent hres
  apply Next_cases env li net (fun r =>
    (fetchOf env li net).1 = Outcome.ret (tc, ls, none) →
    (fetchOf env li net).2.sent = net.sent ++ [lettersRequest li.group (cursorOf li) li.order] →
    r.2.2.sent = net.sent ++ [lettersRequest li.group (cursorOf li) li.order])
  case c1 => intro _ _ _ hfo hres _; rw [hfo] at hres; simp at hres
  case c2 => intro _ _ _ _ _ hfo hres _; rw [hfo] at hres; simp at hres
  case c3 => intro _ _ _ hfo _ hsent; rw [hfo] at hsent; exact hsent
  case c4 => intro _ _ _ _ _ hfo _ _ _ hsent; rw [hfo] at hsent; exact hsent
  case c5 => intro _ _ _ _ _ hfo _ _ _ hsent; rw [hfo] at hsent; exact hsent
  case c6 =>
    intro total h0 hc _ _
    rcases hf with hn | ⟨t2, h2, hc2, _⟩
    · rw [h0] at hn; simp at hn
    · rw [h0] at h2; cases h2; omega
  case c7 =>
    intro total h0 _ hi _ _
    rcases hf with hn | ⟨t2, h2, _, hi2⟩
    · rw [h0] at hn; simp at hn
    · omega
  case c8 => intro _ _ _ _ _ _ hfo hres _; rw [hfo] at hres; simp at hres
  case c9 => intro _ _ _ _ _ _ _ _ hfo hres _; rw [hfo] at hres; simp at hres
  case c10 => intro _ _ _ _ _ _ _ _ hfo _ _ hsent; rw [hfo] at hsent; exact hsent
  case c11 => intro _ _ _ _ _ _ _ _ hfo _ _ hsent; rw [hfo] at hsent; exact hsent

/-! ## Properties of the client -/

/-- C1. Against a well-behaved server holding the list `L` of `T ≥ 1` letters with pairwise
distinct IDs, an iterator created with `Ascending` or `Descending` delivers `L` in order:
for `1 ≤ k ≤ T` the `k`-th call of `Next` returns `(true, nil)` and `Letter()` right after
it is `L[k-1]`, and call `T+1` returns `(false, nil)`. -/
theorem iterator_delivers_list (env : Env σ) (L : List Letter) (g : Group) (o : sortOrder)
    (net : Net σ) (hL : L ≠ []) (hd : (L.map Letter.ID).Nodup) (hs : WellBehaved env L)
    (ho : o = Ascending ∨ o = Descending) :
    (∀ (k : Nat) (h1 : 1 ≤ k) (h2 : k ≤ L.length),
      nthNext env k (Client.LettersIterator g o) net = Outcome.ret (true, none) ∧
      (afterCalls env k (Client.LettersIterator g o) net).1.Letter =
        Outcome.ret (some (L.get ⟨k - 1, by omega⟩))) ∧
    nthNext env (L.length + 1) (Client.LettersIterator g o) net = Outcome.ret (false, none) := by
  have hpos : 0 < L.length := List.length_pos.mpr hL
  constructor
  · intro k h1 h2
    refine ⟨?_, InPage_Letter L g o k h1 h2 _ (InPage_reach env L g o hL hd hs ho net k h1 h2)⟩
    obtain ⟨n, rfl⟩ : ∃ n, k = n + 1 := ⟨k - 1, by omega⟩
    rw [nthNext_succ]
    cases n with
    | zero => exact (InPage_first env L g o hL hs ho net).1
    | succ m =>
      exact (InPage_step env L g o hd hs ho (m + 1) (by omega) (by omega) _ _
        (InPage_reach env L g o hL hd hs ho net (m + 1) (by omega) (by omega))).1
  · rw [nthNext_succ]
    have h := InPage_reach env L g o hL hd hs ho net L.length hpos (le_refl _)
    rw [Next_done env _ _ (L.length : Int) h.2.2.1 (by rw [h.2.2.2.1]; omega)]

/-- C1, at the spec's scenario. -/
theorem iterator_delivers_list_witness :
    (letters35 ≠ [] ∧ (letters35.map Letter.ID).Nodup ∧
      WellBehaved (stubEnv (pagingStub letters35)) letters35 ∧
      (Ascending = Ascending ∨ Ascending = Descending)) ∧
    ((∀ (k : Nat) (h1 : 1 ≤ k) (h2 : k ≤ letters35.length),
      nthNext (stubEnv (pagingStub letters35)) k (Client.LettersIterator group1 Ascending)
        ⟨0, []⟩ = Outcome.ret (true, none) ∧
      (afterCalls (stubEnv (pagingStub letters35)) k (Client.LettersIterator group1 Ascending)
        ⟨0, []⟩).1.Letter = Outcome.ret (some (letters35.get ⟨k - 1, by omega⟩))) ∧
    nthNext (stubEnv (pagingStub letters35)) (letters35.length + 1)
      (Client.LettersIterator group1 Ascending) ⟨0, []⟩ = Outcome.ret (false, none)) :=
  ⟨⟨by decide, by decide, stub_wellBehaved letters35, Or.inl rfl⟩,
    iterator_delivers_list (stubEnv (pagingStub letters35)) letters35 group1 Ascending ⟨0, []⟩
      (by decide) (by decide) (stub_wellBehaved letters35) (Or.inl rfl)⟩

/-- C2. Against the same well-behaved server the `k`-th call of `Next` issues exactly one
request when `k ≤ T` and `k = 30*j + 1`, and none for any other `k`; that request goes
to the letters listing with `cnt` = 30, carries no `letter_id` when `k = 1` and the ID of
`L[k-2]`, the last letter of the page just consumed, otherwise. -/
theorem iterator_requests (env : Env σ) (L : List Letter) (g : Group) (o : sortOrder)
    (net : Net σ) (hL : L ≠ []) (hd : (L.map Letter.ID).Nodup) (hs : WellBehaved env L)
    (ho : o = Ascending ∨ o = Descending) (k : Nat) (hk : 1 ≤ k) :
    (k ≤ L.length ∧ k % 30 = 1 →
      ∃ req, (afterCalls env k (Client.LettersIterator g o) net).2.sent =
          (afterCalls env (k - 1) (Client.LettersIterator g o) net).2.sent ++ [req] ∧
        req = lettersRequest g (if k = 1 then none else L[k - 2]?.map Letter.ID) o ∧
        req.endpoint = "/pcws/message/letter/getList.do" ∧
        req.field "cnt" = some (ReqVal.int 30) ∧
        (k = 1 → req.field "letter_id" = none) ∧
        (1 < k → ∃ l, L[k - 2]? = some l ∧ req.field "letter_id" = some (ReqVal.str l.ID))) ∧
    (¬ (k ≤ L.length ∧ k % 30 = 1) →
      (afterCalls env k (Client.LettersIterator g o) net).2.sent =
        (afterCalls env (k - 1) (Client.LettersIterator g o) net).2.sent) := by
  have hpos : 0 < L.length := List.length_pos.mpr hL
  obtain ⟨n, rfl⟩ : ∃ n, k = n + 1 := ⟨k - 1, by omega⟩
  simp only [Nat.add_sub_cancel]
  rw [afterCalls_succ]
  rcases Nat.eq_zero_or_pos n with hn | hn
  · subst hn
    have h := (InPage_first env L g o hL hs ho net).2.2
    constructor
    · intro _
      refine ⟨lettersRequest g none o, h, by simp, rfl, lettersRequest_cnt _ _ _,
        fun _ => lettersRequest_letter_id _ _ _, fun hlt => by omega⟩
    · intro hno
      exact absurd ⟨hpos, rfl⟩ hno
  · by_cases hle : n < L.length
    · have h := (InPage_step env L g o hd hs ho n hn hle
        (afterCalls env n (Client.LettersIterator g o) net).1
        (afterCalls env n (Client.LettersIterator g o) net).2
        (InPage_reach env L g o hL hd hs ho net n hn (by omega))).2.2
      constructor
      · rintro ⟨_, hmod⟩
        have hb : n % 30 = 0 := by omega
        rw [if_pos hb] at h
        have hlt : n - 1 < L.length := by omega
        refine ⟨_, h, ?_, rfl, lettersRequest_cnt _ _ _, fun h1 => by omega, fun _ => ?_⟩
        · have : ¬ (n + 1 = 1) := by omega
          simp [this]
        · refine ⟨L[n - 1], by simp [hlt], ?_⟩
          rw [lettersRequest_letter_id]
          simp [hlt]
      · intro hno
        have hb : ¬ (n % 30 = 0) := by omega
        rw [if_neg hb] at h
        simpa using h
    · constructor
      · rintro ⟨h1, _⟩; omega
      · intro _
        obtain ⟨m, rfl⟩ : ∃ m, n = L.length + m := ⟨n - L.length, by omega⟩
        have h := Done_reach env L g o hL hd hs ho net m
        rw [Next_done env _ _ (L.length : Int) h.1 (by rw [h.2]; omega)]

/-- C2, at the spec's scenario: advance 31 issues one request, with cursor the ID of letter 30. -/
theorem iterator_requests_witness :
    (letters35 ≠ [] ∧ (letters35.map Letter.ID).Nodup ∧
      WellBehaved (stubEnv (pagingStub letters35)) letters35 ∧
      (Ascending = Ascending ∨ Ascending = Descending) ∧ 1 ≤ 31) ∧
    ∃ req, (afterCalls (stubEnv (pagingStub letters35)) 31
          (Client.LettersIterator group1 Ascending) net0).2.sent =
        (afterCalls (stubEnv (pagingStub letters35)) 30
          (Client.LettersIterator group1 Ascending) net0).2.sent ++ [req] ∧
      req.field "cnt" = some (ReqVal.int 30) ∧
      req.field "letter_id" = some (ReqVal.str (letterNo 29).ID) := by
  refine ⟨⟨by decide, by decide, stub_wellBehaved letters35, Or.inl rfl, by decide⟩, ?_⟩
  obtain ⟨req, h1, _, _, h4, _, h6⟩ :=
    (iterator_requests (stubEnv (pagingStub letters35)) letters35 group1 Ascending net0
      (by decide) (by decide) (stub_wellBehaved letters35) (Or.inl rfl) 31 (by decide)).1
      ⟨by decide, by decide⟩
  obtain ⟨l, hl, hf⟩ := h6 (by decide)
  have hl2 : l = letterNo 29 := by
    have : letters35[31 - 2]? = some (letterNo 29) := by decide
    rw [this] at hl
    exact (Option.some.inj hl).symm
  subst hl2
  exact ⟨req, h1, h4, hf⟩

/-- C3. When the first letters fetch of a fresh iterator succeeds and reports a total
count of 0, whatever list it carried: every call of `Next`, the first included, returns
`(false, nil)`; no call after the first issues a request; and `Letter()` panics (index
out of range) before the first advance and after any number of advances. -/
theorem zero_total_exhausted (env : Env σ) (g : Group) (o : sortOrder) (net : Net σ)
    (ls : List (Option Letter))
    (h0 : (Client.letters env g none 30 o net).1 = Outcome.ret (0, ls, none)) :
    (∀ k, 1 ≤ k → nthNext env k (Client.LettersIterator g o) net = Outcome.ret (false, none)) ∧
    (∀ k, 1 ≤ k → (afterCalls env k (Client.LettersIterator g o) net).2.sent =
      (afterCalls env 1 (Client.LettersIterator g o) net).2.sent) ∧
    (∀ n, (afterCalls env n (Client.LettersIterator g o) net).1.Letter =
      Outcome.panic "index out of range") := by
  rcases hp : Client.letters env g none 30 o net with ⟨out, net1⟩
  rw [hp] at h0
  simp only at h0
  subst h0
  have hfirst := Next_first_zero env (Client.LettersIterator g o) net net1 ls rfl hp
  have hinv : ∀ n, (afterCalls env (n + 1) (Client.LettersIterator g o) net).1.totalCount = some 0
      ∧ (afterCalls env (n + 1) (Client.LettersIterator g o) net).1.currentCount = (n : Int)
      ∧ (afterCalls env (n + 1) (Client.LettersIterator g o) net).1.letters = []
      ∧ (afterCalls env (n + 1) (Client.LettersIterator g o) net).2 = net1 := by
    intro n
    induction n with
    | zero =>
      rw [afterCalls_succ, afterCalls_zero, hfirst]
      exact ⟨rfl, rfl, rfl, rfl⟩
    | succ m ih =>
      rw [afterCalls_succ]
      rw [Next_done env _ _ 0 ih.1 (by rw [ih.2.1]; omega)]
      refine ⟨ih.1, ?_, ih.2.2.1, ih.2.2.2⟩
      simp only [ih.2.1]
      push_cast
      ring
  refine ⟨?_, ?_, ?_⟩
  · intro k hk
    obtain ⟨n, rfl⟩ : ∃ n, k = n + 1 := ⟨k - 1, by omega⟩
    rw [nthNext_succ]
    cases n with
    | zero => rw [afterCalls_zero, hfirst]
    | succ m =>
      have ih := hinv m
      rw [Next_done env _ _ 0 ih.1 (by rw [ih.2.1]; omega)]
  · intro k hk
    obtain ⟨n, rfl⟩ : ∃ n, k = n + 1 := ⟨k - 1, by omega⟩
    rw [(hinv n).2.2.2, (hinv 0).2.2.2]
  · intro n
    cases n with
    | zero => exact Letter_nil _ rfl
    | succ m => exact Letter_nil _ (hinv m).2.2.1

/-- C3, on a server that reports zero letters and yet sends a list. -/
theorem zero_total_exhausted_witness :
    (Client.letters (stubEnv (countStub 0 letters35)) group1 none 30 Ascending net0).1 =
        Outcome.ret (0, (letters35.take 30).map some, none) ∧
    ((∀ k, 1 ≤ k → nthNext (stubEnv (countStub 0 letters35)) k
        (Client.LettersIterator group1 Ascending) net0 = Outcome.ret (false, none)) ∧
    (∀ k, 1 ≤ k → (afterCalls (stubEnv (countStub 0 letters35)) k
        (Client.LettersIterator group1 Ascending) net0).2.sent =
      (afterCalls (stubEnv (countStub 0 letters35)) 1
        (Client.LettersIterator group1 Ascending) net0).2.sent) ∧
    (∀ n, (afterCalls (stubEnv (countStub 0 letters35)) n
        (Client.LettersIterator group1 Ascending) net0).1.Letter =
      Outcome.panic "index out of range")) :=
  ⟨by decide, zero_total_exhausted (stubEnv (countStub 0 letters35)) group1 Ascending net0
    ((letters35.take 30).map some) (by decide)⟩

/-- C6. For a sort order other than `Ascending` and `Descending`, `letters` returns
`(0, nil, "invalid sort order")` for every group, cursor and count and leaves the world
untouched (no request); the first `Next` of an iterator created with such an order returns
`(false, err)` with that error, again without a request and without changing the iterator. -/
theorem invalid_order_no_request (env : Env σ) (g : Group) (o : sortOrder) (net : Net σ)
    (hA : o ≠ Ascending) (hD : o ≠ Descending) :
    (∀ (cursor : Option String) (count : Int),
      Client.letters env g cursor count o net =
        (Outcome.ret (0, [], errorsNew "invalid sort order"), net)) ∧
    LettersIterator.Next env (Client.LettersIterator g o) net =
      (Outcome.ret (false, errorsNew "invalid sort order"), Client.LettersIterator g o, net) := by
  have hl : ∀ (cursor : Option String) (count : Int),
      Client.letters env g cursor count o net =
        (Outcome.ret (0, [], errorsNew "invalid sort order"), net) := by
    intro cursor count
    simp [Client.letters, hA, hD]
  refine ⟨hl, ?_⟩
  have := hl none 30
  simp [LettersIterator.Next, Client.LettersIterator, errorsNew] at this ⊢
  rw [this]

/-- C6, at sort order 2. -/
theorem invalid_order_no_request_witness :
    ((2 : sortOrder) ≠ Ascending ∧ (2 : sortOrder) ≠ Descending) ∧
    (LettersIterator.Next (stubEnv (pagingStub letters35)) (Client.LettersIterator group1 2)
        net0).2.2.sent = [] :=
  ⟨⟨by decide, by decide⟩, by
    rw [(invalid_order_no_request (stubEnv (pagingStub letters35)) group1 2 net0
      (by decide) (by decide)).2]
    rfl⟩

/-- C7. When `Groups` returns a list with a nil error, the nested `list2` string decoded to
an object with `result_code` 200 whose `my_group` list has the same length as the returned
one, and entry by entry the returned group is the decoded one with `Name`, `UnitName` and
`FullName` stripped of their surrounding white space (nothing else changed): each is the raw
field between two runs of white space and neither starts nor ends with white space. -/
theorem groups_trimmed (env : Env σ) (net : Net σ) (gs : List (Option Group))
    (hsucc : (Client.Groups env net).1 = Outcome.ret (gs, none)) :
    ∃ r m t res,
      (request env "/pcws/troop/group/getMyGroupList.do" [] net).1 = Except.ok r ∧
      r.Data = JVal.obj m ∧ mapIndex m "list2" = JVal.str t ∧
      env.unmarshalGroups t = Except.ok res ∧ res.Code = 200 ∧
      gs.length = res.Groups.length ∧
      ∀ i, i < gs.length → ∃ raw g, res.Groups[i]? = some (some raw) ∧ gs[i]? = some (some g) ∧
        g.ID = raw.ID ∧ g.UnitCode = raw.UnitCode ∧ g.EnteredDate = raw.EnteredDate ∧
        Trimmed raw.Name g.Name ∧ Trimmed raw.UnitName g.UnitName ∧
        Trimmed raw.FullName g.FullName := by
  rcases hq : request env "/pcws/troop/group/getMyGroupList.do" [] net with ⟨resp, net1⟩
  cases resp with
  | error e => simp [Client.Groups, hq] at hsucc
  | ok r =>
    cases hd : r.Data with
    | obj m =>
      cases ht : mapIndex m "list2" with
      | str t =>
        cases hres : env.unmarshalGroups t with
        | error e => simp [Client.Groups, hq, hd, ht, hres] at hsucc
        | ok res =>
          have hG := Groups_of_response env net net1 r m t res hq hd ht hres
          rw [hG] at hsucc
          by_cases hc : res.Code = 200
          · rw [if_neg (by simpa using hc)] at hsucc
            cases htg : trimGroups res.Groups with
            | none => rw [htg] at hsucc; simp at hsucc
            | some out =>
              rw [htg] at hsucc
              simp only [Outcome.ret.injEq, Prod.mk.injEq, and_true] at hsucc
              subst hsucc
              obtain ⟨hlen, hall⟩ := trimGroups_spec res.Groups out htg
              exact ⟨r, m, t, res, rfl, hd, ht, hres, hc, hlen, hall⟩
          · rw [if_pos hc] at hsucc
            simp [errorsNew] at hsucc
      | null => simp [Client.Groups, hq, hd, ht] at hsucc
      | bool b => simp [Client.Groups, hq, hd, ht] at hsucc
      | num b => simp [Client.Groups, hq, hd, ht] at hsucc
      | arr b => simp [Client.Groups, hq, hd, ht] at hsucc
      | obj b => simp [Client.Groups, hq, hd, ht] at hsucc
    | null => simp [Client.Groups, hq, hd] at hsucc
    | bool b => simp [Client.Groups, hq, hd] at hsucc
    | num b => simp [Client.Groups, hq, hd] at hsucc
    | arr b => simp [Client.Groups, hq, hd] at hsucc
    | str b => simp [Client.Groups, hq, hd] at hsucc

/-- C7, on a server that sends a padded group. -/
theorem groups_trimmed_witness :
    (Client.Groups (stubEnv (codeStub 200 200)) net0).1 =
      Outcome.ret ([some trimmedGroup, some group1], none) ∧
    ∃ r m t res,
      (request (stubEnv (codeStub 200 200)) "/pcws/troop/group/getMyGroupList.do" [] net0).1
        = Except.ok r ∧
      r.Data = JVal.obj m ∧ mapIndex m "list2" = JVal.str t ∧
      (stubEnv (codeStub 200 200)).unmarshalGroups t = Except.ok res ∧ res.Code = 200 ∧
      2 = res.Groups.length :=
  ⟨by decide, by
    obtain ⟨r, m, t, res, h1, h2, h3, h4, h5, h6, _⟩ :=
      groups_trimmed (stubEnv (codeStub 200 200)) net0 _
        (by decide : (Client.Groups (stubEnv (codeStub 200 200)) net0).1 =
          Outcome.ret ([some trimmedGroup, some group1], none))
    exact ⟨r, m, t, res, h1, h2, h3, h4, h5, h6⟩⟩

/-- C8 as stated fails: on a server whose envelopes carry `resultCode` 500 while the nested
objects carry `result_code` 200, `Groups`, `TraineeInfo` and `letters` all return their
value with a nil error. -/
theorem outer_code_counterexample :
    (∃ r net1, request (stubEnv (codeStub 500 200)) "/pcws/troop/group/getMyGroupList.do" []
        net0 = (Except.ok r, net1) ∧ r.Code = 500) ∧
    (Client.Groups (stubEnv (codeStub 500 200)) net0).1 =
      Outcome.ret ([some trimmedGroup, some group1], none) ∧
    (Client.TraineeInfo (stubEnv (codeStub 500 200)) group1 net0).1 =
      Outcome.ret (some { trainee1 with Group := some group1 }, none) ∧
    (Client.letters (stubEnv (codeStub 500 200)) group1 none 30 Ascending net0).1 =
      Outcome.ret (1, [some (letterNo 0)], none) :=
  ⟨⟨_, _, rfl, rfl⟩, by decide, by decide, by decide⟩

/-- C9 fails on the code. A fetch that succeeds with `letter_cnt` 5 and an empty
`letter_list` makes the first `Next` panic with an index out of range, and so does the fetch
of a second page that comes back empty (31 letters announced, 30 held): `Next` does not
return an error. -/
theorem empty_page_panics :
    (LettersIterator.Next (stubEnv (countStub 5 [])) (Client.LettersIterator group1 Ascending)
      net0).1 = Outcome.panic "index out of range [-1]" ∧
    nthNext (stubEnv (countStub 31 (letters35.take 30))) 30
      (Client.LettersIterator group1 Ascending) net0 = Outcome.ret (true, none) ∧
    nthNext (stubEnv (countStub 31 (letters35.take 30))) 31
      (Client.LettersIterator group1 Ascending) net0 = Outcome.panic "index out of range [-1]" := by
  refine ⟨by decide, by decide, by decide⟩

/-- C5 as stated fails: on a server holding one letter the second `Next` returns
`(false, nil)`, and `Letter()` right after it still returns the letter delivered by the
first advance. -/
theorem letter_after_exhaustion_counterexample :
    nthNext (stubEnv (pagingStub [letterNo 0])) 1 (Client.LettersIterator group1 Ascending) net0
      = Outcome.ret (true, none) ∧
    nthNext (stubEnv (pagingStub [letterNo 0])) 2 (Client.LettersIterator group1 Ascending) net0
      = Outcome.ret (false, none) ∧
    (afterCalls (stubEnv (pagingStub [letterNo 0])) 2 (Client.LettersIterator group1 Ascending)
      net0).1.Letter = Outcome.ret (some (letterNo 0)) := by
  refine ⟨by decide, by decide, by decide⟩

/-- C5, amended. `Letter()` panics (index out of range) on a freshly constructed iterator,
and right after any call of `Next` that returned an error. A call of `Next` that returns
`(false, nil)` leaves the buffer and the position alone, so `Letter()` right after it does
what it did before that call. -/
theorem letter_fails_fresh_or_after_error (env : Env σ) (g : Group) (o : sortOrder)
    (net : Net σ) (n : Nat) :
    (Client.LettersIterator g o).Letter = Outcome.panic "index out of range" ∧
    (∀ b e, nthNext env (n + 1) (Client.LettersIterator g o) net = Outcome.ret (b, some e) →
      (afterCalls env (n + 1) (Client.LettersIterator g o) net).1.Letter =
        Outcome.panic "index out of range") ∧
    (nthNext env (n + 1) (Client.LettersIterator g o) net = Outcome.ret (false, none) →
      (afterCalls env (n + 1) (Client.LettersIterator g o) net).1.Letter =
        (afterCalls env n (Client.LettersIterator g o) net).1.Letter) := by
  refine ⟨Letter_nil _ rfl, ?_, ?_⟩
  · intro b e h
    rw [nthNext_succ] at h
    rw [afterCalls_succ]
    exact PastBuffer_Letter _
      (Next_err_past env _ _ (StartInv_reach env g o net n) b e h)
  · intro h
    rw [nthNext_succ] at h
    rw [afterCalls_succ]
    exact Next_false_Letter env _ _ h

/-- C5 amended, on a server whose first round trip fails: the first `Next` returns the
error and `Letter()` then panics. -/
theorem letter_fails_fresh_or_after_error_witness :
    nthNext (stubEnv flakyStub) 1 (Client.LettersIterator group1 Ascending) net0 =
      Outcome.ret (false, some (Err.other "connection refused")) ∧
    (afterCalls (stubEnv flakyStub) 1 (Client.LettersIterator group1 Ascending) net0).1.Letter =
      Outcome.panic "index out of range" :=
  ⟨by decide,
    (letter_fails_fresh_or_after_error (stubEnv flakyStub) group1 Ascending net0 0).2.1
      false (Err.other "connection refused") (by decide)⟩

/-- C10 as stated fails: on a server whose first round trip fails and whose second
succeeds, the first `Next` returns an error and the second returns `(true, nil)`. -/
theorem resumes_after_error_counterexample :
    nthNext (stubEnv flakyStub) 1 (Client.LettersIterator group1 Ascending) net0 =
      Outcome.ret (false, some (Err.other "connection refused")) ∧
    nthNext (stubEnv flakyStub) 2 (Client.LettersIterator group1 Ascending) net0 =
      Outcome.ret (true, none) := by
  refine ⟨by decide, by decide⟩

/-- C4. Operation by operation: when the envelope answering the operation's request has
`resultCode` 200 and its nested string (`list2` for `Groups`, `group` for `TraineeInfo`,
`list` for the letters listing) decodes to an object whose `result_code` is not 200, the
operation returns the error "invalid result code" and no value: `Groups` returns
`(nil, err)`, `TraineeInfo` returns `(nil, err)`, `letters` returns `(0, nil, err)`, and a
`Next` that makes this fetch (the first one, or the one after a used-up page) returns
`(false, err)`. -/
theorem nested_code_rejected (env : Env σ) :
    (∀ (net netG : Net σ) (r : Response) (m : List (String × JVal)) (t : String)
        (res : GroupsResult),
      request env "/pcws/troop/group/getMyGroupList.do" [] net = (Except.ok r, netG) →
      r.Code = 200 → r.Data = JVal.obj m → mapIndex m "list2" = JVal.str t →
      env.unmarshalGroups t = Except.ok res → res.Code ≠ 200 →
      Client.Groups env net = (Outcome.ret ([], errorsNew "invalid result code"), netG)) ∧
    (∀ (group : Group) (net netT : Net σ) (r : Response) (m : List (String × JVal))
        (t : String) (res : TraineeResult),
      request env "pcws/troop/group/getGroupDetail.do" [("group_id", ReqVal.str group.ID)] net
        = (Except.ok r, netT) →
      r.Code = 200 → r.Data = JVal.obj m → mapIndex m "group" = JVal.str t →
      env.unmarshalTrainee t = Except.ok res → res.Code ≠ 200 →
      Client.TraineeInfo env group net =
        (Outcome.ret (none, errorsNew "invalid result code"), netT)) ∧
    (∀ (group : Group) (cursor : Option String) (count : Int) (order : sortOrder)
        (net netL : Net σ) (r : Response) (m : List (String × JVal)) (t : String)
        (res : LettersResult),
      order = Ascending ∨ order = Descending →
      request env "/pcws/message/letter/getList.do"
        (lettersData group cursor count (orderStr order)) net = (Except.ok r, netL) →
      r.Code = 200 → r.Data = JVal.obj m → mapIndex m "list" = JVal.str t →
      env.unmarshalLetters t = Except.ok res → res.Code ≠ 200 →
      Client.letters env group cursor count order net =
        (Outcome.ret (0, [], errorsNew "invalid result code"), netL)) ∧
    (∀ (li : LettersIterator) (net netL : Net σ) (r : Response) (m : List (String × JVal))
        (t : String) (res : LettersResult),
      Fetches li → li.order = Ascending ∨ li.order = Descending →
      request env "/pcws/message/letter/getList.do"
        (lettersData li.group (cursorOf li) 30 (orderStr li.order)) net = (Except.ok r, netL) →
      r.Code = 200 → r.Data = JVal.obj m → mapIndex m "list" = JVal.str t →
      env.unmarshalLetters t = Except.ok res → res.Code ≠ 200 →
      (LettersIterator.Next env li net).1 =
          Outcome.ret (false, errorsNew "invalid result code") ∧
        (LettersIterator.Next env li net).2.2 = netL) := by
  refine ⟨?_, ?_, ?_, ?_⟩
  · intro net netG r m t res hreq _ hdata ht hres hn
    rw [Groups_of_response env net netG r m t res hreq hdata ht hres, if_pos hn]
  · intro group net netT r m t res hreq _ hdata ht hres hn
    rw [TraineeInfo_of_response env group net netT r m t res hreq hdata ht hres, if_pos hn]
  · intro group cursor count order net netL r m t res ho hreq _ hdata ht hres hn
    rw [letters_of_response env group cursor count order net netL r m t res ho hreq hdata ht
      hres, if_pos hn]
  · intro li net netL r m t res hf ho hreq _ hdata ht hres hn
    have hL := letters_of_response env li.group (cursorOf li) 30 li.order net netL r m t res ho
      hreq hdata ht hres
    rw [if_pos hn] at hL
    rcases hf with h0 | ⟨total, h0, hc, hi⟩
    · have hcur : cursorOf li = none := by simp [cursorOf, h0]
      rw [hcur] at hL
      rw [Next_first_err env li net netL 0 [] (Err.other "invalid result code") h0 hL]
      exact ⟨rfl, rfl⟩
    · have hcur : cursorOf li = li.lastLetterID := by simp [cursorOf, h0]
      rw [hcur] at hL
      rw [Next_page_err env li net netL total 0 [] (Err.other "invalid result code") h0 hc hi
        hL]
      exact ⟨rfl, rfl⟩

/-- C4, on a server whose envelopes carry 200 and whose nested objects carry 500: each
operation on its own returns the error, `Next` on a fresh iterator included. -/
theorem nested_code_rejected_witness :
    (Client.Groups (stubEnv (codeStub 200 500)) net0).1 =
      Outcome.ret ([], errorsNew "invalid result code") ∧
    (Client.TraineeInfo (stubEnv (codeStub 200 500)) group1 net0).1 =
      Outcome.ret (none, errorsNew "invalid result code") ∧
    (Client.letters (stubEnv (codeStub 200 500)) group1 none 30 Ascending net0).1 =
      Outcome.ret (0, [], errorsNew "invalid result code") ∧
    (LettersIterator.Next (stubEnv (codeStub 200 500))
      (Client.LettersIterator group1 Ascending) net0).1 =
        Outcome.ret (false, errorsNew "invalid result code") := by
  have h := nested_code_rejected (stubEnv (codeStub 200 500))
  refine ⟨?_, ?_, ?_, ?_⟩
  · rw [h.1 net0 _ _ _ "" _ rfl rfl rfl rfl rfl (by decide)]
  · rw [h.2.1 group1 net0 _ _ _ "" _ rfl rfl rfl rfl rfl (by decide)]
  · rw [h.2.2.1 group1 none 30 Ascending net0 _ _ _ "" _ (Or.inl rfl) rfl rfl rfl rfl rfl
      (by decide)]
  · exact (h.2.2.2 (Client.LettersIterator group1 Ascending) net0 _ _ _ "" _ (Or.inl rfl)
      (Or.inl rfl) rfl rfl rfl rfl rfl (by decide)).1

/-- C8, amended. Operation by operation, the nested-envelope operations never look at the
outer `resultCode`: whatever it is, when the nested string of the envelope answering the
operation's request decodes to an object with `result_code` 200, `Groups` returns the
trimmed groups (its entries being non-null), `TraineeInfo` returns the decoded record with
its group attached (the record being non-null), and `letters` returns the decoded count and
list, each with a nil error. Only the nested code is checked. -/
theorem nested_code_decides (env : Env σ) :
    (∀ (net netG : Net σ) (r : Response) (m : List (String × JVal)) (t : String)
        (res : GroupsResult) (gs : List (Option Group)),
      request env "/pcws/troop/group/getMyGroupList.do" [] net = (Except.ok r, netG) →
      r.Data = JVal.obj m → mapIndex m "list2" = JVal.str t →
      env.unmarshalGroups t = Except.ok res → res.Code = 200 →
      trimGroups res.Groups = some gs →
      Client.Groups env net = (Outcome.ret (gs, none), netG)) ∧
    (∀ (group : Group) (net netT : Net σ) (r : Response) (m : List (String × JVal))
        (t : String) (res : TraineeResult) (ti : TraineeInfo),
      request env "pcws/troop/group/getGroupDetail.do" [("group_id", ReqVal.str group.ID)] net
        = (Except.ok r, netT) →
      r.Data = JVal.obj m → mapIndex m "group" = JVal.str t →
      env.unmarshalTrainee t = Except.ok res → res.Code = 200 →
      res.TraineeInfo = some ti →
      Client.TraineeInfo env group net =
        (Outcome.ret (some { ti with Group := some group }, none), netT)) ∧
    (∀ (group : Group) (cursor : Option String) (count : Int) (order : sortOrder)
        (net netL : Net σ) (r : Response) (m : List (String × JVal)) (t : String)
        (res : LettersResult),
      order = Ascending ∨ order = Descending →
      request env "/pcws/message/letter/getList.do"
        (lettersData group cursor count (orderStr order)) net = (Except.ok r, netL) →
      r.Data = JVal.obj m → mapIndex m "list" = JVal.str t →
      env.unmarshalLetters t = Except.ok res → res.Code = 200 →
      Client.letters env group cursor count order net =
        (Outcome.ret (res.Count, res.Letters, none), netL)) := by
  refine ⟨?_, ?_, ?_⟩
  · intro net netG r m t res gs hreq hdata ht hres hok hgs
    rw [Groups_of_response env net netG r m t res hreq hdata ht hres,
      if_neg (by simpa using hok), hgs]
  · intro group net netT r m t res ti hreq hdata ht hres hok hti
    rw [TraineeInfo_of_response env group net netT r m t res hreq hdata ht hres,
      if_neg (by simpa using hok), hti]
  · intro group cursor count order net netL r m t res ho hreq hdata ht hres hok
    rw [letters_of_response env group cursor count order net netL r m t res ho hreq hdata ht
      hres, if_neg (by simpa using hok)]

/-- C8 amended, on a server whose envelopes carry 500 and whose nested objects carry 200:
each operation on its own returns its value. -/
theorem nested_code_decides_witness :
    (Client.Groups (stubEnv (codeStub 500 200)) net0).1 =
        Outcome.ret ([some trimmedGroup, some group1], none) ∧
    (Client.TraineeInfo (stubEnv (codeStub 500 200)) group1 net0).1 =
        Outcome.ret (some { trainee1 with Group := some group1 }, none) ∧
    (Client.letters (stubEnv (codeStub 500 200)) group1 none 30 Descending net0).1 =
        Outcome.ret (1, [some (letterNo 0)], none) := by
  have h := nested_code_decides (stubEnv (codeStub 500 200))
  refine ⟨?_, ?_, ?_⟩
  · rw [h.1 net0 _ _ _ "" _ [some trimmedGroup, some group1] rfl rfl rfl rfl rfl (by decide)]
  · rw [h.2.1 group1 net0 _ _ _ "" _ trainee1 rfl rfl rfl rfl rfl rfl]
  · rw [h.2.2 group1 none 30 Descending net0 _ _ _ "" _ (Or.inr rfl) rfl rfl rfl rfl rfl]
    rfl

/-- C10, amended. The iterator keeps no errored state, but an error leaves its position
past its buffer: once call `j` of `Next` has returned an error, a later call `k` returns
`(true, nil)` only if some call `m` after `j`, up to `k`, itself made a listing fetch (it
reached one of the two calls of `letters` and issued one more request) and that fetch
returned a nil error. As long as the fetches made after the error fail, no later call
reports an item. -/
theorem advance_after_error_needs_fetch (env : Env σ) (g : Group) (o : sortOrder)
    (net : Net σ) (j k : Nat) (b : Bool) (e : Err) (hjk : j < k)
    (herr : nthNext env j (Client.LettersIterator g o) net = Outcome.ret (b, some e))
    (hk : nthNext env k (Client.LettersIterator g o) net = Outcome.ret (true, none)) :
    ∃ m, j < m ∧ m ≤ k ∧
      FetchOk env (afterCalls env (m - 1) (Client.LettersIterator g o) net).1
        (afterCalls env (m - 1) (Client.LettersIterator g o) net).2 ∧
      (afterCalls env m (Client.LettersIterator g o) net).2.sent =
        (afterCalls env (m - 1) (Client.LettersIterator g o) net).2.sent ++
          [lettersRequest (afterCalls env (m - 1) (Client.LettersIterator g o) net).1.group
            (cursorOf (afterCalls env (m - 1) (Client.LettersIterator g o) net).1)
            (afterCalls env (m - 1) (Client.LettersIterator g o) net).1.order] := by
  have hex : ∃ m, j < m ∧ m ≤ k ∧
      FetchOk env (afterCalls env (m - 1) (Client.LettersIterator g o) net).1
        (afterCalls env (m - 1) (Client.LettersIterator g o) net).2 := by
    by_contra hno
    push_neg at hno
    have hpast : ∀ d, j + d < k →
        PastBuffer (afterCalls env (j + d) (Client.LettersIterator g o) net).1 := by
      intro d
      induction d with
      | zero =>
        intro _
        cases j with
        | zero =>
          exact (by simp [PastBuffer, afterCalls, Client.LettersIterator] :
            PastBuffer (afterCalls env 0 (Client.LettersIterator g o) net).1)
        | succ i =>
          rw [nthNext_succ] at herr
          rw [Nat.add_zero, afterCalls_succ]
          exact Next_err_past env _ _ (StartInv_reach env g o net i) b e herr
      | succ d ih =>
        intro hlt
        have hp := ih (by omega)
        rw [← Nat.add_assoc, afterCalls_succ]
        exact (Next_stuck env _ _ hp (hno (j + d + 1) (by omega) (by omega))).2
    obtain ⟨d, rfl⟩ : ∃ d, k = j + d + 1 := ⟨k - j - 1, by omega⟩
    rw [nthNext_succ] at hk
    exact (Next_stuck env _ _ (hpast d (by omega))
      (hno (j + d + 1) (by omega) (by omega))).1 hk
  obtain ⟨m, hjm, hmk, hok⟩ := hex
  refine ⟨m, hjm, hmk, hok, ?_⟩
  obtain ⟨n, rfl⟩ : ∃ n, m = n + 1 := ⟨m - 1, by omega⟩
  simp only [Nat.add_sub_cancel] at hok ⊢
  rw [afterCalls_succ]
  exact Next_fetch_sent env _ _ hok

/-- C10 amended, on a server whose first round trip fails: the second call delivers, and
it is the second call that made the successful fetch. -/
theorem advance_after_error_needs_fetch_witness :
    (1 < 2 ∧
      nthNext (stubEnv flakyStub) 1 (Client.LettersIterator group1 Ascending) net0 =
        Outcome.ret (false, some (Err.other "connection refused")) ∧
      nthNext (stubEnv flakyStub) 2 (Client.LettersIterator group1 Ascending) net0 =
        Outcome.ret (true, none)) ∧
    ∃ m, 1 < m ∧ m ≤ 2 ∧
      FetchOk (stubEnv flakyStub)
        (afterCalls (stubEnv flakyStub) (m - 1) (Client.LettersIterator group1 Ascending) net0).1
        (afterCalls (stubEnv flakyStub) (m - 1) (Client.LettersIterator group1 Ascending) net0).2 := by
  refine ⟨⟨by decide, by decide, by decide⟩, ?_⟩
  obtain ⟨m, h1, h2, h3, _⟩ :=
    advance_after_error_needs_fetch (stubEnv flakyStub) group1 Ascending net0 1 2 false
      (Err.other "connection refused") (by decide) (by decide) (by decide)
  exact ⟨m, h1, h2, h3⟩

end thecamp
